import Mathlib

/-!
Verification development for the FinSight personal-finance dashboard
(`src/App.tsx`).  The analytics engine of the app — money parsing, the CSV
codec, the rule-based classifier, date-range arithmetic, the aggregation
functions and the state-mutation layer — is embedded shallowly below.

Modelling conventions:
* TypeScript strings are lists of characters (`Str`); JavaScript string
  comparison, `toLowerCase`, `trim` and `includes` are modelled on ASCII
  (the only characters the engine manipulates).
* JavaScript numbers holding money are integers in cents; `Number(...)` on
  a cleaned money string and `Math.round` are modelled with exact integer
  arithmetic (`Math.round x = ⌊x + 1/2⌋`).
* `Map` objects are association lists with JavaScript `Map` insertion-order
  semantics (updates keep the original position, lookups take that value).
* `new Date(...)` / `setDate` / `getFullYear`-style calendar arithmetic is
  modelled on proleptic-Gregorian `(year, month, day)` triples.
-/

namespace FinSight

/-- TypeScript strings, modelled as lists of characters. -/
abbrev Str := List Char

/-- Shorthand turning a Lean string literal into the model's string type. -/
def str (s : String) : Str := s.data

/-- The whitespace characters relevant to the engine; JavaScript
`String.prototype.trim` removes them from both ends. -/
def isSpaceChar (c : Char) : Bool := c = ' ' || c = '\t' || c = '\n' || c = '\r'

/-- JavaScript `s.trim()`. -/
def trimStr (s : Str) : Str :=
  ((s.dropWhile isSpaceChar).reverse.dropWhile isSpaceChar).reverse

/-- JavaScript `(s || '').toLowerCase()` (the source's `safeLower`). -/
def safeLower (s : Str) : Str := s.map Char.toLower

/-- Does `s` start with `needle`? (helper for the `includes` model). -/
def leadsWith : Str → Str → Bool
  | [], _ => true
  | _ :: _, [] => false
  | a :: as, b :: bs => a = b && leadsWith as bs

/-- JavaScript `hay.includes(needle)`. -/
def hasSub (hay needle : Str) : Bool :=
  match hay with
  | [] => needle.isEmpty
  | c :: t => leadsWith needle (c :: t) || hasSub t needle

/-- JavaScript code-unit `<` on strings (lexicographic). -/
def strLt : Str → Str → Bool
  | [], [] => false
  | [], _ :: _ => true
  | _ :: _, [] => false
  | a :: as, b :: bs => if a < b then true else if b < a then false else strLt as bs

/-- JavaScript `a <= b` on strings. -/
def strLe (a b : Str) : Bool := !strLt b a

/-- Digit-accumulation loop for `natToDigStr`; the fuel (first argument)
only has to dominate the number of digits. -/
def natDigitsGo : Nat → Nat → Str → Str
  | 0, _, acc => acc
  | fuel + 1, n, acc =>
    if n = 0 then acc else natDigitsGo fuel (n / 10) (Char.ofNat (48 + n % 10) :: acc)

/-- Decimal digits of a natural number (most significant first). -/
def natToDigStr (n : Nat) : Str :=
  if n = 0 then ['0'] else natDigitsGo n n []

/-- Numeric value of a digit string (how `Number` reads a block of digits). -/
def digitsToNat (s : Str) : Nat :=
  s.foldl (fun acc c => 10 * acc + (c.toNat - 48)) 0

/-! ## Data model (`App.tsx` type declarations) -/

inductive TxType where
  | expense
  | income
deriving DecidableEq, Repr, Inhabited

structure Transaction where
  id : Str
  date : Str
  merchant : Str
  amountCents : Int
  type : TxType
  categoryId : Str
  accountId : Str
  note : Option Str
deriving DecidableEq, Repr, Inhabited

structure Category where
  id : Str
  name : Str
  emoji : Option Str
  monthlyBudgetCents : Option Int
deriving DecidableEq, Repr

inductive AccountType where
  | chequing
  | credit
  | savings
deriving DecidableEq, Repr

structure Account where
  id : Str
  name : Str
  type : AccountType
deriving DecidableEq, Repr

structure Rule where
  id : Str
  contains : Str
  categoryId : Str
deriving DecidableEq, Repr

inductive Currency where
  | cad
  | usd
deriving DecidableEq, Repr

structure Settings where
  currency : Currency
  hideCents : Bool
  smartCategorize : Bool
deriving DecidableEq, Repr

structure AppState where
  version : Nat
  categories : List Category
  accounts : List Account
  rules : List Rule
  transactions : List Transaction
  settings : Settings
deriving DecidableEq, Repr

/-! ## Money parsing (`parseMoneyToCents`)

The source strips every character that is not a digit, `.` or `-`, rejects
`""`, `"-"`, `"."`, applies `Number(...)` and `Math.round(value * 100)`.
`Number` on such a cleaned string is NaN unless it is an optional minus
followed by digits with at most one dot and at least one digit; its exact
decimal value is used here (`Math.round` is ⌊x + 1/2⌋, half toward +∞). -/

def isMoneyChar (c : Char) : Bool := c.isDigit || c = '.' || c = '-'

/-- Exact value of JavaScript `Number(cleaned)` as (mantissa, decimal scale):
the value is `mantissa / 10 ^ scale`; `none` models NaN. -/
def decValue (s : Str) : Option (Int × Nat) :=
  let (neg, body) :=
    match s with
    | '-' :: rest => (true, rest)
    | _ => (false, s)
  if body.any (fun c => c = '-') then none
  else
    let parts := body.splitOn '.'
    if parts.length ≤ 2 && parts.all (fun p => p.all Char.isDigit) &&
        (parts.flatten.length > 0) then
      let mantissa : Int := Int.ofNat (digitsToNat parts.flatten)
      let scale := if parts.length = 2 then (parts.getD 1 []).length else 0
      some (if neg then -mantissa else mantissa, scale)
    else none

/-- JavaScript `Math.round (a / b)` for `b > 0`, computed exactly:
⌊a/b + 1/2⌋ = ⌊(2a + b) / (2b)⌋. -/
def jsRoundDiv (a b : Int) : Int := (2 * a + b) / (2 * b)

def parseMoneyToCents (input : Str) : Int :=
  let cleaned := input.filter isMoneyChar
  if cleaned = [] || cleaned = ['-'] || cleaned = ['.'] then 0
  else
    match decValue cleaned with
    | none => 0
    | some (n, k) => jsRoundDiv (100 * n) (Int.ofNat (10 ^ k))

/-! ## CSV codec (`csvEscape`, `parseCSVText`) -/

/-- Does the field need quoting on export (`/[\n\r,"]/.test(s)`)? -/
def needsQuote (s : Str) : Bool :=
  s.any (fun c => c = '\n' || c = '\r' || c = ',' || c = '"')

/-- Double every internal quote (`s.replace(/"/g, '""')`). -/
def doubleQuotes : Str → Str
  | [] => []
  | c :: rest =>
    if c = '"' then '"' :: '"' :: doubleQuotes rest else c :: doubleQuotes rest

def csvEscape (s : Str) : Str :=
  if needsQuote s then '"' :: (doubleQuotes s ++ ['"']) else s

/-- JavaScript `cur.replace(/\r/g, '')`. -/
def stripCR (s : Str) : Str := s.filter (fun c => c ≠ '\r')

/-- The character-by-character CSV tokenizer loop of `parseCSVText`:
remaining text, in-quotes flag, current cell, current row, finished rows. -/
def parseCSVAux : Str → Bool → Str → List Str → List (List Str) → List (List Str)
  | [], _, cur, row, acc => acc ++ [row ++ [stripCR cur]]
  | '"' :: '"' :: rest, true, cur, row, acc => parseCSVAux rest true (cur ++ ['"']) row acc
  | '"' :: rest, true, cur, row, acc => parseCSVAux rest false cur row acc
  | c :: rest, true, cur, row, acc => parseCSVAux rest true (cur ++ [c]) row acc
  | '"' :: rest, false, cur, row, acc => parseCSVAux rest true cur row acc
  | ',' :: rest, false, cur, row, acc => parseCSVAux rest false [] (row ++ [cur]) acc
  | '\n' :: rest, false, cur, row, acc => parseCSVAux rest false [] [] (acc ++ [row ++ [stripCR cur]])
  | c :: rest, false, cur, row, acc => parseCSVAux rest false (cur ++ [c]) row acc

/-- `parseCSVText`: tokenize, trim every cell, drop all-empty rows. -/
def parseCSVText (text : Str) : List (List Str) :=
  ((parseCSVAux text false [] [] []).map (fun r => r.map trimStr)).filter
    (fun r => r.any (fun c => c.length > 0))

/-! ## Classifier (`applySmartCategory`) -/

def applySmartCategory (merchant : Str) (rules : List Rule) (fallbackCategoryId : Str) : Str :=
  match rules with
  | [] => fallbackCategoryId
  | r :: rest =>
    if trimStr r.contains = [] then applySmartCategory merchant rest fallbackCategoryId
    else if hasSub (safeLower merchant) (safeLower r.contains) then r.categoryId
    else applySmartCategory merchant rest fallbackCategoryId

/-! ## JavaScript `Map` model: association lists with insertion-order update. -/

/-- `m.set(k, v)`: update in place if the key exists, else append. -/
def mapSet (m : List (Str × α)) (k : Str) (v : α) : List (Str × α) :=
  match m with
  | [] => [(k, v)]
  | (k0, v0) :: rest => if k0 = k then (k, v) :: rest else (k0, v0) :: mapSet rest k v

/-- `m.get(k)`. -/
def mapGet (m : List (Str × α)) (k : Str) : Option α :=
  match m with
  | [] => none
  | (k0, v0) :: rest => if k0 = k then some v0 else mapGet rest k

/-- `new Map(pairs)`: sets the pairs in order (later duplicates win). -/
def mapOfPairs (ps : List (Str × α)) : List (Str × α) :=
  ps.foldl (fun m p => mapSet m p.1 p.2) []

/-! ## Date-range membership (lexicographic, as in the source) -/

def dateInRange (dateISO minISO maxISO : Str) : Bool :=
  strLe minISO dateISO && strLe dateISO maxISO

/-! ## Aggregation engine -/

structure Totals where
  income : Int
  expense : Int
  net : Int
  savingsRate : Int
deriving DecidableEq, Repr

/-- The `totals` computation over the already-filtered transaction list. -/
def totalsOf (filteredTx : List Transaction) : Totals :=
  let p := filteredTx.foldl
    (fun (p : Int × Int) t =>
      if t.type = TxType.income then (p.1 + t.amountCents, p.2)
      else (p.1, p.2 + t.amountCents))
    (0, 0)
  let net := p.1 - p.2
  { income := p.1, expense := p.2, net,
    savingsRate := if p.1 > 0 then jsRoundDiv (net * 100) p.1 else 0 }

/-- `groupExpenseByCategory`: per-category expense sums as a `Map`. -/
def groupExpenseByCategory (transactions : List Transaction) : List (Str × Int) :=
  transactions.foldl
    (fun m t =>
      if t.type ≠ TxType.expense then m
      else mapSet m t.categoryId ((mapGet m t.categoryId).getD 0 + t.amountCents))
    []

structure DayNet where
  date : Str
  netCents : Int
  incomeCents : Int
  expenseCents : Int
deriving DecidableEq, Repr, Inhabited

/-- One step of the `groupByDayNet` accumulation for transaction `t`. -/
def dayNetStep (m : List (Str × DayNet)) (t : Transaction) : List (Str × DayNet) :=
  let e := (mapGet m t.date).getD { date := t.date, netCents := 0, incomeCents := 0, expenseCents := 0 }
  let e2 :=
    if t.type = TxType.income then
      { e with incomeCents := e.incomeCents + t.amountCents, netCents := e.netCents + t.amountCents }
    else
      { e with expenseCents := e.expenseCents + t.amountCents, netCents := e.netCents - t.amountCents }
  mapSet m t.date e2

/-- The ascending-by-date order used by the `groupByDayNet` sort
(`(a, b) => a.date < b.date ? -1 : 1` over distinct dates). -/
def dayLe (a b : DayNet) : Prop := strLe a.date b.date = true

instance (a b : DayNet) : Decidable (dayLe a b) := by
  unfold dayLe; infer_instance

/-- `groupByDayNet`: per-day net/income/expense, sorted ascending by date.
The JavaScript `sort` is a stable sort; insertion sort here. -/
def groupByDayNet (transactions : List Transaction) : List DayNet :=
  List.insertionSort dayLe ((transactions.foldl dayNetStep []).map Prod.snd)

structure CashPoint where
  date : Str
  runningCents : Int
  incomeCents : Int
  expenseCents : Int
deriving DecidableEq, Repr, Inhabited

/-- The running-balance map over the grouped days (`let running = 0; ...`). -/
def cashflowAux (running : Int) : List DayNet → List CashPoint
  | [] => []
  | d :: rest =>
    { date := d.date.drop 5, runningCents := running + d.netCents,
      incomeCents := d.incomeCents, expenseCents := d.expenseCents } ::
      cashflowAux (running + d.netCents) rest

/-- The `cashflow` series over the filtered transactions. -/
def cashflowOf (filteredTx : List Transaction) : List CashPoint :=
  cashflowAux 0 (groupByDayNet filteredTx.reverse)

structure BudgetRow where
  categoryId : Str
  budgetCents : Int
  spentCents : Int
  remainingCents : Int
deriving DecidableEq, Repr, Inhabited

structure BudgetStats where
  rows : List BudgetRow
  totalBudget : Int
  totalSpent : Int
  remaining : Int
deriving DecidableEq, Repr

/-- The spent-descending order of the budget-rows sort
(`(a, b) => b.spentCents - a.spentCents`). -/
def spentGe (a b : BudgetRow) : Prop := b.spentCents ≤ a.spentCents

instance (a b : BudgetRow) : Decidable (spentGe a b) := by
  unfold spentGe; infer_instance

/-- The budget row built for one budgeted category from the spend map. -/
def budgetRowFor (spentByCat : List (Str × Int)) (b : Str × Int) : BudgetRow :=
  let spent := (mapGet spentByCat b.1).getD 0
  { categoryId := b.1, budgetCents := b.2, spentCents := spent,
    remainingCents := b.2 - spent }

/-- The `budgetStats` computation (date-range filter only, per the source). -/
def budgetStatsOf (categories : List Category) (transactions : List Transaction)
    (rangeMin rangeMax : Str) : BudgetStats :=
  let budgets := (categories.filter (fun c => (c.monthlyBudgetCents.getD 0) > 0)).map
    (fun c => (c.id, c.monthlyBudgetCents.getD 0))
  let spentByCat := groupExpenseByCategory
    (transactions.filter (fun t => dateInRange t.date rangeMin rangeMax))
  let rows := List.insertionSort spentGe (budgets.map (budgetRowFor spentByCat))
  { rows,
    totalBudget := (rows.map (fun r => r.budgetCents)).sum,
    totalSpent := (rows.map (fun r => r.spentCents)).sum,
    remaining := (rows.map (fun r => r.budgetCents)).sum - (rows.map (fun r => r.spentCents)).sum }

/-! ## Calendar dates (model of the JavaScript `Date` arithmetic)

`previousDateRange` builds `Date` objects from the ISO strings, measures the
inclusive day span, and shifts with `setDate`.  A `Date` at local midnight is
a proleptic-Gregorian civil triple; day counting is the standard
days-from-civil computation, and shifting by days is iterated calendar
succ/pred. -/

structure CivilDate where
  year : Int
  month : Int
  day : Int
deriving DecidableEq, Repr

def isLeap (y : Int) : Bool := (y % 4 = 0 && decide (y % 100 ≠ 0)) || y % 400 = 0

def monthLen (y m : Int) : Int :=
  if m = 2 then (if isLeap y then 29 else 28)
  else if m = 4 || m = 6 || m = 9 || m = 11 then 30
  else 31

def validDate (d : CivilDate) : Prop :=
  1 ≤ d.month ∧ d.month ≤ 12 ∧ 1 ≤ d.day ∧ d.day ≤ monthLen d.year d.month

instance (d : CivilDate) : Decidable (validDate d) := by
  unfold validDate; infer_instance

/-- Days since 1970-01-01 of a civil date (days-from-civil). -/
def toDays (d : CivilDate) : Int :=
  let y := if d.month ≤ 2 then d.year - 1 else d.year
  let era := y / 400
  let yoe := y - era * 400
  let mp := if d.month > 2 then d.month - 3 else d.month + 9
  let doy := (153 * mp + 2) / 5 + d.day - 1
  let doe := yoe * 365 + yoe / 4 - yoe / 100 + doy
  era * 146097 + doe - 719468

def succDay (d : CivilDate) : CivilDate :=
  if d.day < monthLen d.year d.month then ⟨d.year, d.month, d.day + 1⟩
  else if d.month < 12 then ⟨d.year, d.month + 1, 1⟩
  else ⟨d.year + 1, 1, 1⟩

def predDay (d : CivilDate) : CivilDate :=
  if 1 < d.day then ⟨d.year, d.month, d.day - 1⟩
  else if 1 < d.month then ⟨d.year, d.month - 1, monthLen d.year (d.month - 1)⟩
  else ⟨d.year - 1, 12, 31⟩

/-- Calendar shift by `n` days (the `setDate(getDate() + n)` model). -/
def addDays (d : CivilDate) (n : Int) : CivilDate :=
  if 0 ≤ n then succDay^[n.toNat] d else predDay^[(-n).toNat] d

structure DateRange where
  min : CivilDate
  max : CivilDate
deriving DecidableEq, Repr

/-- `previousDateRange`: inclusive span of the range, then the window of the
same length ending the day before `min`. -/
def previousDateRange (r : DateRange) : DateRange :=
  let dayDiff := max 0 (toDays r.max - toDays r.min) + 1
  let prevMax := addDays r.min (-1)
  let prevMin := addDays prevMax (-(dayDiff - 1))
  { min := prevMin, max := prevMax }

/-- Inclusive day-count of a range. -/
def rangeDayCount (r : DateRange) : Int := toDays r.max - toDays r.min + 1

/-! ## CSV export -/

/-- JavaScript `(cents / 100).toFixed(2)` for integer `cents`. -/
def centsToAmountStr (cents : Int) : Str :=
  let a := cents.natAbs
  (if cents < 0 then ['-'] else []) ++ natToDigStr (a / 100) ++
    '.' :: (if a % 100 < 10 then '0' :: natToDigStr (a % 100) else natToDigStr (a % 100))

def txTypeStr : TxType → Str
  | TxType.expense => str "expense"
  | TxType.income => str "income"

def exportHeader : List Str :=
  [str "date", str "merchant", str "amount", str "type", str "category", str "account", str "note"]

/-- The seven export cells of one transaction. -/
def exportRowOf (catById accById : List (Str × Str)) (t : Transaction) : List Str :=
  [t.date, t.merchant, centsToAmountStr t.amountCents, txTypeStr t.type,
   (mapGet catById t.categoryId).getD [], (mapGet accById t.accountId).getD [],
   t.note.getD []]

/-- `r.map(csvEscape).join(',')`. -/
def joinStrs (sep : Char) : List Str → Str
  | [] => []
  | [x] => x
  | x :: y :: xs => x ++ sep :: joinStrs sep (y :: xs)

/-- The date-descending order of the export sort
(`(a, b) => a.date < b.date ? 1 : -1`). -/
def txDateGe (a b : Transaction) : Prop := strLe b.date a.date = true

instance (a b : Transaction) : Decidable (txDateGe a b) := by
  unfold txDateGe; infer_instance

/-- The CSV text produced by `exportCSV` (sans the download plumbing). -/
def exportCSVString (state : AppState) : Str :=
  let catById := mapOfPairs (state.categories.map (fun c => (c.id, c.name)))
  let accById := mapOfPairs (state.accounts.map (fun a => (a.id, a.name)))
  let rows := (List.insertionSort txDateGe state.transactions).map
    (exportRowOf catById accById)
  joinStrs '\n' ((exportHeader :: rows).map (fun r => joinStrs ',' (r.map csvEscape)))

/-! ## CSV import -/

/-- JavaScript `header.indexOf(name)` (−1 when absent). -/
def jsIndexOf (l : List Str) (x : Str) : Int :=
  match l.findIdx? (fun y => y = x) with
  | some i => (i : Int)
  | none => -1

/-- JavaScript `r[i] || ''` for a possibly out-of-range (or −1) index. -/
def cellAt (r : List Str) (i : Int) : Str :=
  if 0 ≤ i then r.getD i.toNat [] else []

/-- Deterministic stand-in for `uid('tx')` (ids never affect the engine). -/
def mkTxId (n : Nat) : Str := str "tx_" ++ natToDigStr n

/-- The body of the import loop for one data row `r` (`none` = `continue`).
`n` is the row number used for the fresh id. -/
def importRowTx (state : AppState)
    (dateIdx merchantIdx amountIdx typeIdx categoryIdx accountIdx noteIdx : Int)
    (n : Nat) (r : List Str) : Option Transaction :=
  let date := (cellAt r dateIdx).take 10
  let merchant := cellAt r merchantIdx
  let amount := cellAt r amountIdx
  let typeCell := cellAt r typeIdx
  let typeStr := if typeCell = [] then str "expense" else typeCell
  let categoryNameVal := if categoryIdx ≥ 0 then cellAt r categoryIdx else []
  let accountNameVal := if accountIdx ≥ 0 then cellAt r accountIdx else []
  let note := if noteIdx ≥ 0 then cellAt r noteIdx else []
  if date = [] || merchant = [] || amount = [] then none
  else
    let amountCents := (parseMoneyToCents amount).natAbs
    if amountCents ≤ 0 then none
    else
      let accByName := mapOfPairs (state.accounts.map (fun a => (safeLower a.name, a.id)))
      let catByName := mapOfPairs (state.categories.map (fun c => (safeLower c.name, c.id)))
      let resolvedAccountId := (mapGet accByName (safeLower accountNameVal)).getD (str "acc_cc")
      let resolvedCategoryId :=
        if typeStr = str "income" then str "cat_income"
        else if categoryNameVal ≠ [] then
          (mapGet catByName (safeLower categoryNameVal)).getD (str "cat_other")
        else if state.settings.smartCategorize then
          applySmartCategory merchant state.rules (str "cat_other")
        else str "cat_other"
      some
        { id := mkTxId n, date, merchant, amountCents := Int.ofNat amountCents,
          type := if typeStr = str "income" then TxType.income else TxType.expense,
          categoryId := resolvedCategoryId, accountId := resolvedAccountId,
          note := if note = [] then none else some note }

/-- The `for (let i = 1; ...)` loop over the data rows. -/
def importLoop (state : AppState)
    (dateIdx merchantIdx amountIdx typeIdx categoryIdx accountIdx noteIdx : Int) :
    Nat → List (List Str) → List Transaction
  | _, [] => []
  | n, r :: rest =>
    match importRowTx state dateIdx merchantIdx amountIdx typeIdx categoryIdx accountIdx noteIdx n r with
    | none => importLoop state dateIdx merchantIdx amountIdx typeIdx categoryIdx accountIdx noteIdx (n + 1) rest
    | some tx => tx :: importLoop state dateIdx merchantIdx amountIdx typeIdx categoryIdx accountIdx noteIdx (n + 1) rest

/-- `importFromText`, as a pure state transformer on the pasted text. -/
def importFromText (state : AppState) (text : Str) : AppState :=
  let rows := parseCSVText text
  if rows.length < 2 then state
  else
    let header := (rows.headD []).map safeLower
    let dateIdx := jsIndexOf header (str "date")
    let merchantIdx := jsIndexOf header (str "merchant")
    let amountIdx := jsIndexOf header (str "amount")
    let typeIdx := jsIndexOf header (str "type")
    let categoryIdx := jsIndexOf header (str "category")
    let accountIdx := jsIndexOf header (str "account")
    let noteIdx := jsIndexOf header (str "note")
    if dateIdx = -1 || merchantIdx = -1 || amountIdx = -1 then state
    else
      let next := importLoop state dateIdx merchantIdx amountIdx typeIdx categoryIdx accountIdx noteIdx 1 (rows.drop 1)
      if next.length = 0 then state
      else { state with transactions := next ++ state.transactions }

/-! ## State mutations -/

/-- The transaction-form fields read by `addTransaction`; `newId` stands for
the `uid('tx')` value. -/
structure AddTxArgs where
  txDate : Str
  txMerchant : Str
  txAmount : Str
  txType : TxType
  txCategoryId : Str
  txAccountId : Str
  txNote : Str
  newId : Str
deriving DecidableEq, Repr

def addTransaction (state : AppState) (a : AddTxArgs) : AppState :=
  let amountCents := (parseMoneyToCents a.txAmount).natAbs
  if trimStr a.txMerchant = [] then state
  else if amountCents ≤ 0 then state
  else
    let newTx : Transaction :=
      { id := a.newId, date := a.txDate, merchant := trimStr a.txMerchant,
        amountCents := Int.ofNat amountCents, type := a.txType,
        categoryId := if a.txType = TxType.income then str "cat_income" else a.txCategoryId,
        accountId := a.txAccountId,
        note := if trimStr a.txNote = [] then none else some (trimStr a.txNote) }
    { state with transactions := newTx :: state.transactions }

def deleteTransaction (state : AppState) (id : Str) : AppState :=
  { state with transactions := state.transactions.filter (fun t => t.id ≠ id) }

def upsertCategoryBudget (state : AppState) (categoryId : Str) (monthlyBudgetCents : Int) : AppState :=
  { state with categories :=
      state.categories.map (fun c =>
        if c.id = categoryId then { c with monthlyBudgetCents := some monthlyBudgetCents } else c) }

def addRule (state : AppState) (contains categoryId newId : Str) : AppState :=
  let trimmed := trimStr contains
  if trimmed = [] then state
  else { state with rules := { id := newId, contains := trimmed, categoryId } :: state.rules }

def deleteRule (state : AppState) (id : Str) : AppState :=
  { state with rules := state.rules.filter (fun r => r.id ≠ id) }

/-- The fixed default dataset.  The first five transaction dates are derived
from the wall clock (`addDaysISO(todayISO(), -2)`, ..., `monthStartISO`), so
they are parameters here; every other field is the source's literal. -/
def defaultState (dm2 dm4 dm6 dm10 monthStart : Str) : AppState :=
  { version := 1,
    accounts :=
      [{ id := str "acc_cheq", name := str "Chequing", type := AccountType.chequing },
       { id := str "acc_cc", name := str "Credit Card", type := AccountType.credit },
       { id := str "acc_save", name := str "Savings", type := AccountType.savings }],
    categories :=
      [{ id := str "cat_gro", name := str "Groceries", emoji := some (str "🛒"), monthlyBudgetCents := some 60000 },
       { id := str "cat_rent", name := str "Rent", emoji := some (str "🏠"), monthlyBudgetCents := some 180000 },
       { id := str "cat_eat", name := str "Eating Out", emoji := some (str "🍜"), monthlyBudgetCents := some 30000 },
       { id := str "cat_trans", name := str "Transport", emoji := some (str "🚇"), monthlyBudgetCents := some 20000 },
       { id := str "cat_subs", name := str "Subscriptions", emoji := some (str "📺"), monthlyBudgetCents := some 15000 },
       { id := str "cat_health", name := str "Health", emoji := some (str "💊"), monthlyBudgetCents := some 15000 },
       { id := str "cat_other", name := str "Other", emoji := some (str "🧾"), monthlyBudgetCents := some 25000 },
       { id := str "cat_income", name := str "Income", emoji := some (str "💰"), monthlyBudgetCents := none }],
    rules :=
      [{ id := str "r1", contains := str "uber", categoryId := str "cat_trans" },
       { id := str "r2", contains := str "loblaws", categoryId := str "cat_gro" },
       { id := str "r3", contains := str "spotify", categoryId := str "cat_subs" }],
    transactions :=
      [{ id := str "t1", date := dm2, merchant := str "Loblaws", amountCents := 8423,
         type := TxType.expense, categoryId := str "cat_gro", accountId := str "acc_cc",
         note := some (str "Weekly groceries") },
       { id := str "t2", date := dm4, merchant := str "Spotify", amountCents := 1199,
         type := TxType.expense, categoryId := str "cat_subs", accountId := str "acc_cc", note := none },
       { id := str "t3", date := dm6, merchant := str "Ramen", amountCents := 2487,
         type := TxType.expense, categoryId := str "cat_eat", accountId := str "acc_cc", note := none },
       { id := str "t4", date := dm10, merchant := str "Paycheque", amountCents := 240000,
         type := TxType.income, categoryId := str "cat_income", accountId := str "acc_cheq", note := none },
       { id := str "t5", date := monthStart, merchant := str "Rent", amountCents := 180000,
         type := TxType.expense, categoryId := str "cat_rent", accountId := str "acc_cheq", note := none },
       { id := str "t6", date := str "2025-09-08", merchant := str "Farmers Market", amountCents := 5600,
         type := TxType.expense, categoryId := str "cat_gro", accountId := str "acc_cc", note := none },
       { id := str "t7", date := str "2025-09-15", merchant := str "Commuter Pass", amountCents := 12000,
         type := TxType.expense, categoryId := str "cat_trans", accountId := str "acc_cc", note := none },
       { id := str "t8", date := str "2025-09-30", merchant := str "Paycheque", amountCents := 240000,
         type := TxType.income, categoryId := str "cat_income", accountId := str "acc_cheq", note := none },
       { id := str "t9", date := str "2025-10-10", merchant := str "Dentist", amountCents := 32000,
         type := TxType.expense, categoryId := str "cat_health", accountId := str "acc_cheq", note := none },
       { id := str "t10", date := str "2025-10-22", merchant := str "Meal Prep", amountCents := 18500,
         type := TxType.expense, categoryId := str "cat_gro", accountId := str "acc_cc", note := none },
       { id := str "t11", date := str "2025-10-31", merchant := str "Paycheque", amountCents := 240000,
         type := TxType.income, categoryId := str "cat_income", accountId := str "acc_cheq", note := none },
       { id := str "t12", date := str "2025-11-05", merchant := str "Holiday Flights", amountCents := 65000,
         type := TxType.expense, categoryId := str "cat_other", accountId := str "acc_cc",
         note := some (str "Family travel") },
       { id := str "t13", date := str "2025-11-18", merchant := str "Grocery Stock-up", amountCents := 42000,
         type := TxType.expense, categoryId := str "cat_gro", accountId := str "acc_cc", note := none },
       { id := str "t14", date := str "2025-11-28", merchant := str "Black Friday Electronics", amountCents := 98000,
         type := TxType.expense, categoryId := str "cat_other", accountId := str "acc_cc", note := none },
       { id := str "t15", date := str "2025-11-30", merchant := str "Paycheque", amountCents := 240000,
         type := TxType.income, categoryId := str "cat_income", accountId := str "acc_cheq", note := none },
       { id := str "t16", date := str "2025-12-03", merchant := str "Gifts & Decor", amountCents := 75000,
         type := TxType.expense, categoryId := str "cat_other", accountId := str "acc_cc", note := none },
       { id := str "t17", date := str "2025-12-12", merchant := str "Dining Out", amountCents := 28000,
         type := TxType.expense, categoryId := str "cat_eat", accountId := str "acc_cc", note := none },
       { id := str "t18", date := str "2025-12-20", merchant := str "Charity Donation", amountCents := 30000,
         type := TxType.expense, categoryId := str "cat_other", accountId := str "acc_cheq", note := none },
       { id := str "t19", date := str "2025-12-31", merchant := str "Paycheque", amountCents := 240000,
         type := TxType.income, categoryId := str "cat_income", accountId := str "acc_cheq", note := none }],
    settings := { currency := Currency.cad, hideCents := false, smartCategorize := true } }

/-- The state mutations reachable from the UI (the `uid()` results and the
clock-derived reset dates appear as explicit data). -/
inductive Op where
  | addTx (a : AddTxArgs)
  | deleteTx (id : Str)
  | upsertBudget (categoryId : Str) (monthlyBudgetCents : Int)
  | addRuleOp (contains categoryId newId : Str)
  | deleteRuleOp (id : Str)
  | importText (text : Str)
  | reset (dm2 dm4 dm6 dm10 monthStart : Str)
deriving Repr

def applyOp (state : AppState) : Op → AppState
  | Op.addTx a => addTransaction state a
  | Op.deleteTx id => deleteTransaction state id
  | Op.upsertBudget c b => upsertCategoryBudget state c b
  | Op.addRuleOp c cat newId => addRule state c cat newId
  | Op.deleteRuleOp id => deleteRule state id
  | Op.importText text => importFromText state text
  | Op.reset a b c d e => defaultState a b c d e

/-- States reachable from the default dataset through the mutation layer. -/
def Reachable (dm2 dm4 dm6 dm10 monthStart : Str) (s : AppState) : Prop :=
  ∃ ops : List Op, s = ops.foldl applyOp (defaultState dm2 dm4 dm6 dm10 monthStart)

/-- The income-category invariant of claim C7, as an executable check. -/
def incomeCategoryInv (s : AppState) : Bool :=
  s.transactions.all (fun t => decide (t.type = TxType.income → t.categoryId = str "cat_income"))

/-! ## Specification-side helper predicates -/

/-- A rule fires on a merchant: non-blank `contains` (after trimming) that is
a case-insensitive substring of the merchant, exactly as the classifier
tests it. -/
def ruleMatches (merchant : Str) (r : Rule) : Bool :=
  !(trimStr r.contains).isEmpty && hasSub (safeLower merchant) (safeLower r.contains)

/-- Sum of the income amounts of a transaction list. -/
def incomeSum (l : List Transaction) : Int :=
  ((l.filter (fun t => t.type = TxType.income)).map (fun t => t.amountCents)).sum

/-- Sum of the expense amounts of a transaction list. -/
def expenseSum (l : List Transaction) : Int :=
  ((l.filter (fun t => t.type = TxType.expense)).map (fun t => t.amountCents)).sum

/-- Last cell of a nonempty row (specification-side view of a serialized
row, used to describe the tokenizer's output). -/
def lastCell (c0 : Str) : List Str → Str
  | [] => c0
  | c :: cs => lastCell c cs

/-- All cells but the last of a nonempty row. -/
def initCells (c0 : Str) : List Str → List Str
  | [] => []
  | c :: cs => c0 :: initCells c cs

/-- The raw (pre-trim) cells the tokenizer recovers from one serialized
row: every cell verbatim, with carriage returns stripped from the last. -/
def rawRow : List Str → List Str
  | [] => [stripCR []]
  | c0 :: cs => initCells c0 cs ++ [stripCR (lastCell c0 cs)]

/-- A minimal app state, used for concrete instances of the theorems. -/
def emptyState : AppState :=
  { version := 1, categories := [], accounts := [], rules := [], transactions := [],
    settings := { currency := Currency.cad, hideCents := false, smartCategorize := false } }

/-! # Theorems -/

/-! ## C3: classifier -/

theorem applySmartCategory_eq_find (merchant : Str) (rules : List Rule) (fb : Str) :
    applySmartCategory merchant rules fb =
      (((rules.find? (ruleMatches merchant)).map Rule.categoryId).getD fb) := by
  induction rules with
  | nil => rfl
  | cons r rest ih =>
    by_cases h1 : trimStr r.contains = []
    · have : ruleMatches merchant r = false := by
        simp [ruleMatches, h1]
      simp [applySmartCategory, h1, List.find?, this, ih]
    · by_cases h2 : hasSub (safeLower merchant) (safeLower r.contains)
      · have : ruleMatches merchant r = true := by
          simp [ruleMatches, h2, List.isEmpty_iff, h1]
        simp [applySmartCategory, h1, h2, List.find?, this]
      · have : ruleMatches merchant r = false := by
          simp [ruleMatches]
          intro
          simpa using h2
        simp [applySmartCategory, h1, h2, List.find?, this, ih]

/-- C3 counterexample: with the single rule whose `contains` is `" uber"`,
the rule's trimmed text `"uber"` is a (case-insensitive) substring of the
merchant `"ubereats"` and the rule is not skipped, yet the classifier does
not return the rule's category: matching uses the untrimmed text, so the
claim as stated (match on the trimmed `contains`) is false. -/
theorem C3_trimmed_matching_refuted :
    hasSub (safeLower (str "ubereats")) (safeLower (trimStr (str " uber"))) = true ∧
    trimStr (str " uber") ≠ [] ∧
    applySmartCategory (str "ubereats")
      [{ id := str "r1", contains := str " uber", categoryId := str "transport" }]
      (str "cat_other") = str "cat_other" := by
  refine ⟨by decide, by decide, by decide⟩

/-- C3 (amended): the classifier scans the rules in list order and returns
the category of the first rule whose untrimmed `contains` is a
case-insensitive substring of the merchant name, skipping rules whose
trimmed `contains` is empty (trimming enters only the skip test); if no
rule matches it returns the fallback.  In particular list order, not
specificity, decides: for rules uber→transport, "uber eats"→food and
merchant "Uber Eats Toronto" the result is transport. -/
theorem C3_classifier_first_match_wins :
    (∀ (merchant : Str) (rules : List Rule) (fallbackCategoryId : Str),
      applySmartCategory merchant rules fallbackCategoryId =
        (((rules.find? (ruleMatches merchant)).map Rule.categoryId).getD fallbackCategoryId)) ∧
    applySmartCategory (str "Uber Eats Toronto")
      [{ id := str "r1", contains := str "uber", categoryId := str "transport" },
       { id := str "r2", contains := str "uber eats", categoryId := str "food" }]
      (str "cat_other") = str "transport" :=
  ⟨applySmartCategory_eq_find, by decide⟩

/-! ## C5: totals -/

theorem totals_foldl (l : List Transaction) (a b : Int) :
    l.foldl
      (fun (p : Int × Int) t =>
        if t.type = TxType.income then (p.1 + t.amountCents, p.2)
        else (p.1, p.2 + t.amountCents))
      (a, b) = (a + incomeSum l, b + expenseSum l) := by
  induction l generalizing a b with
  | nil => simp [incomeSum, expenseSum]
  | cons t rest ih =>
    by_cases h : t.type = TxType.income
    · have hne : t.type ≠ TxType.expense := by simp [h]
      simp [h, hne, ih, incomeSum, expenseSum, List.filter_cons]
      ring
    · have he : t.type = TxType.expense := by
        cases ht : t.type
        · rfl
        · exact absurd ht h
      simp [h, he, ih, incomeSum, expenseSum, List.filter_cons]
      ring

/-- C5: over any filtered transaction list, `totals` returns the sum of the
income amounts, the sum of the expense amounts, their difference as `net`,
the integer percentage `round(net / income × 100)` when income is positive,
and a savings rate of exactly 0 whenever income is 0 (no division
happens in that case), whatever the expense total is. -/
theorem C5_totals_postcondition (filteredTx : List Transaction) :
    (totalsOf filteredTx).income = incomeSum filteredTx ∧
    (totalsOf filteredTx).expense = expenseSum filteredTx ∧
    (totalsOf filteredTx).net = incomeSum filteredTx - expenseSum filteredTx ∧
    (0 < incomeSum filteredTx →
      (totalsOf filteredTx).savingsRate =
        jsRoundDiv ((incomeSum filteredTx - expenseSum filteredTx) * 100) (incomeSum filteredTx)) ∧
    (incomeSum filteredTx = 0 → (totalsOf filteredTx).savingsRate = 0) := by
  have h := totals_foldl filteredTx 0 0
  unfold totalsOf
  rw [h]
  refine ⟨by simp, by simp, by simp, fun hpos => ?_, fun hz => ?_⟩
  · simp [hpos]
  · simp [hz]

/-- C5 witness: the theorem applied to a two-transaction list with positive
income (income 1000, expense 250, savings rate 75%) and to the empty list
(income 0, savings rate 0). -/
theorem C5_totals_witness :
    ((totalsOf
        [{ id := str "a", date := str "2025-01-01", merchant := str "Pay", amountCents := 1000,
           type := TxType.income, categoryId := str "cat_income", accountId := str "acc_cheq",
           note := none },
         { id := str "b", date := str "2025-01-02", merchant := str "Shop", amountCents := 250,
           type := TxType.expense, categoryId := str "cat_other", accountId := str "acc_cc",
           note := none }]).savingsRate = 75) ∧
    ((totalsOf ([] : List Transaction)).savingsRate = 0) := by
  constructor
  · have h := (C5_totals_postcondition
      [{ id := str "a", date := str "2025-01-01", merchant := str "Pay", amountCents := 1000,
         type := TxType.income, categoryId := str "cat_income", accountId := str "acc_cheq",
         note := none },
       { id := str "b", date := str "2025-01-02", merchant := str "Shop", amountCents := 250,
         type := TxType.expense, categoryId := str "cat_other", accountId := str "acc_cc",
         note := none }]).2.2.2.1 (by decide)
    rw [h]
    decide
  · exact (C5_totals_postcondition []).2.2.2.2 (by decide)

/-! ## C7: income-category invariant -/

theorem importRowTx_income_cat (state : AppState)
    (dateIdx merchantIdx amountIdx typeIdx categoryIdx accountIdx noteIdx : Int)
    (n : Nat) (r : List Str) (tx : Transaction)
    (h : importRowTx state dateIdx merchantIdx amountIdx typeIdx categoryIdx accountIdx noteIdx n r = some tx) :
    tx.type = TxType.income → tx.categoryId = str "cat_income" := by
  unfold importRowTx at h
  dsimp only at h
  split at h
  · exact absurd h (by simp)
  · split at h
    · exact absurd h (by simp)
    · by_cases hty :
        (if cellAt r typeIdx = [] then str "expense" else cellAt r typeIdx) = str "income"
      · simp only [hty, if_true] at h
        obtain rfl := Option.some_injective _ h.symm
        intro
        rfl
      · simp only [hty, if_false] at h
        obtain rfl := Option.some_injective _ h.symm
        intro hcontra
        exact absurd hcontra (by simp)

theorem importLoop_income_cat (state : AppState)
    (dateIdx merchantIdx amountIdx typeIdx categoryIdx accountIdx noteIdx : Int)
    (n : Nat) (rows : List (List Str)) (tx : Transaction)
    (h : tx ∈ importLoop state dateIdx merchantIdx amountIdx typeIdx categoryIdx accountIdx noteIdx n rows) :
    tx.type = TxType.income → tx.categoryId = str "cat_income" := by
  induction rows generalizing n with
  | nil => simp [importLoop] at h
  | cons r rest ih =>
    rw [importLoop] at h
    cases hr : importRowTx state dateIdx merchantIdx amountIdx typeIdx categoryIdx accountIdx noteIdx n r with
    | none =>
      rw [hr] at h
      exact ih (n + 1) h
    | some tx0 =>
      rw [hr] at h
      rcases List.mem_cons.1 h with h0 | h1
      · subst h0
        exact importRowTx_income_cat state _ _ _ _ _ _ _ n r tx hr
      · exact ih (n + 1) h1

theorem incomeCategoryInv_iff (s : AppState) :
    incomeCategoryInv s = true ↔
      ∀ t ∈ s.transactions, t.type = TxType.income → t.categoryId = str "cat_income" := by
  simp only [incomeCategoryInv, List.all_eq_true, decide_eq_true_eq]

theorem applyOp_preserves_incomeInv (s : AppState) (op : Op)
    (h : incomeCategoryInv s = true) : incomeCategoryInv (applyOp s op) = true := by
  rw [incomeCategoryInv_iff] at h ⊢
  cases op with
  | addTx a =>
    intro t ht
    unfold applyOp addTransaction at ht
    dsimp only at ht
    split at ht
    · exact h t ht
    · split at ht
      · exact h t ht
      · rcases List.mem_cons.1 ht with h0 | h1
        · subst h0
          by_cases hty : a.txType = TxType.income
          · intro
            simp [hty]
          · intro hcontra
            exact absurd hcontra (by simpa using hty)
        · exact h t h1
  | deleteTx id =>
    intro t ht
    unfold applyOp deleteTransaction at ht
    dsimp only at ht
    exact h t (List.mem_of_mem_filter ht)
  | upsertBudget c b => exact fun t ht => h t ht
  | addRuleOp c cat newId =>
    intro t ht
    unfold applyOp addRule at ht
    dsimp only at ht
    split at ht
    · exact h t ht
    · exact h t ht
  | deleteRuleOp id => exact fun t ht => h t ht
  | importText text =>
    intro t ht
    unfold applyOp importFromText at ht
    dsimp only at ht
    split at ht
    · exact h t ht
    · split at ht
      · exact h t ht
      · split at ht
        · exact h t ht
        · rcases List.mem_append.1 ht with h0 | h1
          · exact importLoop_income_cat _ _ _ _ _ _ _ _ _ _ t h0
          · exact h t h1
  | reset a b c d e =>
    intro t ht
    revert ht
    have : incomeCategoryInv (defaultState a b c d e) = true := rfl
    rw [incomeCategoryInv_iff] at this
    exact this t

/-- C7: every state reachable from the default dataset through the mutation
operations (add, delete, budget upsert, rule add/delete, CSV import, reset)
keeps every income transaction in the designated income category
`cat_income`, whatever category the user supplied or the CSV row declared. -/
theorem C7_income_category_invariant (dm2 dm4 dm6 dm10 monthStart : Str) (s : AppState)
    (h : Reachable dm2 dm4 dm6 dm10 monthStart s) : incomeCategoryInv s = true := by
  obtain ⟨ops, rfl⟩ := h
  have base : incomeCategoryInv (defaultState dm2 dm4 dm6 dm10 monthStart) = true := rfl
  revert base
  generalize defaultState dm2 dm4 dm6 dm10 monthStart = st
  induction ops generalizing st with
  | nil => exact fun base => base
  | cons op rest ih =>
    intro base
    exact ih (applyOp st op) (applyOp_preserves_incomeInv st op base)

/-- C7 witness: the invariant, via the theorem, for the concrete state after
adding an income transaction whose form nonetheless supplied the category
`cat_eat` — the stored transaction still lands in `cat_income`. -/
theorem C7_income_category_witness :
    incomeCategoryInv
      ((([Op.addTx
          { txDate := str "2026-02-03", txMerchant := str "Employer", txAmount := str "1000",
            txType := TxType.income, txCategoryId := str "cat_eat", txAccountId := str "acc_cheq",
            txNote := str "", newId := str "tx_w" }] : List Op)).foldl applyOp
        (defaultState (str "2026-02-01") (str "2026-01-30") (str "2026-01-28")
          (str "2026-01-24") (str "2026-02-01"))) = true :=
  C7_income_category_invariant _ _ _ _ _ _ ⟨_, rfl⟩

/-! ## C6: import header atomicity -/

theorem jsIndexOf_eq_neg_one_iff (l : List Str) (x : Str) :
    jsIndexOf l x = -1 ↔ x ∉ l := by
  have hs : (l.findIdx? (fun y => y = x)).isSome = l.any (fun y => y = x) :=
    List.findIdx?_isSome
  unfold jsIndexOf
  cases h : l.findIdx? (fun y => y = x) with
  | none =>
    rw [h] at hs
    constructor
    · intro _ hx
      have hany : l.any (fun y => decide (y = x)) = true :=
        List.any_eq_true.2 ⟨x, hx, by simp⟩
      rw [hany] at hs
      exact Bool.noConfusion hs
    · intro _
      rfl
  | some i =>
    rw [h] at hs
    have hx : x ∈ l := by
      have hany : l.any (fun y => decide (y = x)) = true := hs.symm
      obtain ⟨y, hy, hyx⟩ := List.any_eq_true.1 hany
      obtain rfl := of_decide_eq_true hyx
      exact hy
    constructor
    · intro hc
      exfalso
      dsimp only at hc
      omega
    · intro hnx
      exact absurd hx hnx

/-- C6: the import is atomic.  If the (case-insensitively matched) header
row lacks `date`, `merchant` or `amount`, the whole import returns the state
unchanged (no transaction is created); the same holds when the parsed text
has no data rows at all, and when the row loop produces zero valid
transactions. -/
theorem C6_import_header_atomicity (state : AppState) (text : Str) :
    ((parseCSVText text).length < 2 → importFromText state text = state) ∧
    ((str "date" ∉ ((parseCSVText text).headD []).map safeLower ∨
      str "merchant" ∉ ((parseCSVText text).headD []).map safeLower ∨
      str "amount" ∉ ((parseCSVText text).headD []).map safeLower) →
      importFromText state text = state) ∧
    (importLoop state
        (jsIndexOf (((parseCSVText text).headD []).map safeLower) (str "date"))
        (jsIndexOf (((parseCSVText text).headD []).map safeLower) (str "merchant"))
        (jsIndexOf (((parseCSVText text).headD []).map safeLower) (str "amount"))
        (jsIndexOf (((parseCSVText text).headD []).map safeLower) (str "type"))
        (jsIndexOf (((parseCSVText text).headD []).map safeLower) (str "category"))
        (jsIndexOf (((parseCSVText text).headD []).map safeLower) (str "account"))
        (jsIndexOf (((parseCSVText text).headD []).map safeLower) (str "note"))
        1 ((parseCSVText text).drop 1) = [] →
      importFromText state text = state) := by
  unfold importFromText
  dsimp only
  refine ⟨fun h1 => by rw [if_pos h1], fun h2 => ?_, fun h3 => ?_⟩
  · by_cases h1 : (parseCSVText text).length < 2
    · rw [if_pos h1]
    · rw [if_neg h1]
      have hcond :
          (jsIndexOf (((parseCSVText text).headD []).map safeLower) (str "date") = -1 ∨
           jsIndexOf (((parseCSVText text).headD []).map safeLower) (str "merchant") = -1 ∨
           jsIndexOf (((parseCSVText text).headD []).map safeLower) (str "amount") = -1) := by
        rcases h2 with h | h | h
        · exact Or.inl ((jsIndexOf_eq_neg_one_iff _ _).2 h)
        · exact Or.inr (Or.inl ((jsIndexOf_eq_neg_one_iff _ _).2 h))
        · exact Or.inr (Or.inr ((jsIndexOf_eq_neg_one_iff _ _).2 h))
      split
      · rfl
      · next hne =>
        exfalso
        rcases hcond with h | h | h <;>
          rw [List.headD_eq_head?_getD] at h <;> simp [h] at hne
  · by_cases h1 : (parseCSVText text).length < 2
    · rw [if_pos h1]
    · rw [if_neg h1]
      split
      · rfl
      · rw [h3]
        simp

/-- C6 witness: importing text whose header lacks `amount` into the default
dataset (with concrete clock dates) leaves the state unchanged. -/
theorem C6_import_header_witness :
    importFromText
      (defaultState (str "2026-02-01") (str "2026-01-30") (str "2026-01-28")
        (str "2026-01-24") (str "2026-02-01"))
      (str "date,merchant\n2025-01-01,Store") =
      defaultState (str "2026-02-01") (str "2026-01-30") (str "2026-01-28")
        (str "2026-01-24") (str "2026-02-01") :=
  (C6_import_header_atomicity _ _).2.1 (Or.inr (Or.inr (by decide)))

/-! ## C2: import row filtering -/

theorem importRowTx_eq_none_iff (state : AppState)
    (dateIdx merchantIdx amountIdx typeIdx categoryIdx accountIdx noteIdx : Int)
    (n : Nat) (r : List Str) :
    importRowTx state dateIdx merchantIdx amountIdx typeIdx categoryIdx accountIdx noteIdx n r = none ↔
      (cellAt r dateIdx = [] ∨ cellAt r merchantIdx = [] ∨ cellAt r amountIdx = [] ∨
        (parseMoneyToCents (cellAt r amountIdx)).natAbs = 0) := by
  unfold importRowTx
  dsimp only
  by_cases h1 : (cellAt r dateIdx).take 10 = [] ∨ cellAt r merchantIdx = [] ∨ cellAt r amountIdx = []
  · have hcond :
        ((cellAt r dateIdx).take 10 = [] || cellAt r merchantIdx = [] || cellAt r amountIdx = []) = true := by
      rcases h1 with h | h | h <;> simp [h]
    rw [if_pos hcond]
    simp only [true_iff]
    rcases h1 with h | h | h
    · exact Or.inl ((List.take_eq_nil_iff.1 h).resolve_left (by omega))
    · exact Or.inr (Or.inl h)
    · exact Or.inr (Or.inr (Or.inl h))
  · have hcond :
        ¬(((cellAt r dateIdx).take 10 = [] || cellAt r merchantIdx = [] || cellAt r amountIdx = []) = true) := by
      simp only [Bool.or_eq_true, decide_eq_true_eq]
      push_neg
      exact ⟨⟨fun hx => h1 (Or.inl hx), fun hx => h1 (Or.inr (Or.inl hx))⟩,
        fun hx => h1 (Or.inr (Or.inr hx))⟩
    rw [if_neg hcond]
    push_neg at h1
    obtain ⟨hd, hm, ha⟩ := h1
    by_cases h2 : (parseMoneyToCents (cellAt r amountIdx)).natAbs = 0
    · rw [if_pos (by omega)]
      simp [h2]
    · rw [if_neg (by omega)]
      simp only [reduceCtorEq, false_iff]
      push_neg
      refine ⟨?_, hm, ha, h2⟩
      intro hx
      exact hd (List.take_eq_nil_iff.2 (Or.inr hx))

theorem importLoop_eq_filterMap (state : AppState)
    (dateIdx merchantIdx amountIdx typeIdx categoryIdx accountIdx noteIdx : Int)
    (n : Nat) (rows : List (List Str)) :
    importLoop state dateIdx merchantIdx amountIdx typeIdx categoryIdx accountIdx noteIdx n rows =
      (rows.enumFrom n).filterMap
        (fun p => importRowTx state dateIdx merchantIdx amountIdx typeIdx categoryIdx accountIdx noteIdx p.1 p.2) := by
  induction rows generalizing n with
  | nil => rfl
  | cons r rest ih =>
    rw [importLoop]
    cases hr : importRowTx state dateIdx merchantIdx amountIdx typeIdx categoryIdx accountIdx noteIdx n r with
    | none => simp [List.enumFrom_cons, List.filterMap_cons, hr, ih]
    | some tx => simp [List.enumFrom_cons, List.filterMap_cons, hr, ih]

theorem importRowTx_amount_pos (state : AppState)
    (dateIdx merchantIdx amountIdx typeIdx categoryIdx accountIdx noteIdx : Int)
    (n : Nat) (r : List Str) (tx : Transaction)
    (h : importRowTx state dateIdx merchantIdx amountIdx typeIdx categoryIdx accountIdx noteIdx n r = some tx) :
    0 < tx.amountCents := by
  unfold importRowTx at h
  dsimp only at h
  split at h
  · exact absurd h (by simp)
  · split at h
    · exact absurd h (by simp)
    · next hpos =>
      obtain rfl := Option.some_injective _ h.symm
      simp only [Nat.not_le] at hpos
      simpa using hpos

theorem importLoop_amount_pos (state : AppState)
    (dateIdx merchantIdx amountIdx typeIdx categoryIdx accountIdx noteIdx : Int)
    (n : Nat) (rows : List (List Str)) (tx : Transaction)
    (h : tx ∈ importLoop state dateIdx merchantIdx amountIdx typeIdx categoryIdx accountIdx noteIdx n rows) :
    0 < tx.amountCents := by
  induction rows generalizing n with
  | nil => simp [importLoop] at h
  | cons r rest ih =>
    rw [importLoop] at h
    cases hr : importRowTx state dateIdx merchantIdx amountIdx typeIdx categoryIdx accountIdx noteIdx n r with
    | none =>
      rw [hr] at h
      exact ih (n + 1) h
    | some tx0 =>
      rw [hr] at h
      rcases List.mem_cons.1 h with h0 | h1
      · subst h0
        exact importRowTx_amount_pos state _ _ _ _ _ _ _ n r tx hr
      · exact ih (n + 1) h1

/-- C2 counterexample: the amount cell `-5` parses to −500 cents — not
strictly positive — yet the row is imported (the code keeps the absolute
value), so "skipped if the parsed amount is not strictly positive" is false
as stated. -/
theorem C2_negative_amount_imported :
    parseMoneyToCents (str "-5") < 0 ∧
    (importFromText emptyState (str "date,merchant,amount\n2025-01-04,Neg,-5")).transactions.length = 1 :=
  ⟨by decide, by decide⟩

/-- C2 (amended): a data row yields no transaction exactly when its date,
merchant or amount cell is empty or the parsed amount rounds to zero cents
in absolute value (a negative amount is imported with its absolute value);
the loop handles each data row independently, keeping exactly the valid
ones in order; and every transaction built by the import loop has strictly
positive `amountCents`. -/
theorem C2_import_row_filtering :
    (∀ (state : AppState) (dateIdx merchantIdx amountIdx typeIdx categoryIdx accountIdx noteIdx : Int)
        (n : Nat) (r : List Str),
      importRowTx state dateIdx merchantIdx amountIdx typeIdx categoryIdx accountIdx noteIdx n r = none ↔
        (cellAt r dateIdx = [] ∨ cellAt r merchantIdx = [] ∨ cellAt r amountIdx = [] ∨
          (parseMoneyToCents (cellAt r amountIdx)).natAbs = 0)) ∧
    (∀ (state : AppState) (dateIdx merchantIdx amountIdx typeIdx categoryIdx accountIdx noteIdx : Int)
        (n : Nat) (rows : List (List Str)),
      importLoop state dateIdx merchantIdx amountIdx typeIdx categoryIdx accountIdx noteIdx n rows =
        (rows.enumFrom n).filterMap
          (fun p => importRowTx state dateIdx merchantIdx amountIdx typeIdx categoryIdx accountIdx noteIdx p.1 p.2)) ∧
    (∀ (state : AppState) (dateIdx merchantIdx amountIdx typeIdx categoryIdx accountIdx noteIdx : Int)
        (n : Nat) (rows : List (List Str)) (tx : Transaction),
      tx ∈ importLoop state dateIdx merchantIdx amountIdx typeIdx categoryIdx accountIdx noteIdx n rows →
        0 < tx.amountCents) :=
  ⟨importRowTx_eq_none_iff, importLoop_eq_filterMap, importLoop_amount_pos⟩

/-- C2 witness: in a concrete two-row import (one row with an empty
merchant, one valid), the empty-merchant row is dropped by the row filter
and the transaction built from the valid row has positive cents. -/
theorem C2_import_row_witness :
    (importRowTx emptyState 0 1 2 (-1) (-1) (-1) (-1) 1 [str "2025-01-01", str "", str "4.50"] = none) ∧
    (0 <
      ((importLoop emptyState 0 1 2 (-1) (-1) (-1) (-1) 1
          [[str "2025-01-01", str "", str "4.50"], [str "2025-01-02", str "Shop", str "4.50"]]).headD
        { id := [], date := [], merchant := [], amountCents := 0, type := TxType.expense,
          categoryId := [], accountId := [], note := none }).amountCents) := by
  constructor
  · exact (C2_import_row_filtering.1 emptyState 0 1 2 (-1) (-1) (-1) (-1) 1
      [str "2025-01-01", str "", str "4.50"]).2 (Or.inr (Or.inl (by decide)))
  · exact C2_import_row_filtering.2.2 emptyState 0 1 2 (-1) (-1) (-1) (-1) 1
      [[str "2025-01-01", str "", str "4.50"], [str "2025-01-02", str "Shop", str "4.50"]]
      _ (by decide)

/-! ## C10: date truncation on import -/

/-- C10: every transaction accepted by the import stores as its date exactly
the first ten characters of the row's (already trimmed) date cell; nothing
validates the result as a calendar date. -/
theorem C10_import_date_truncation (state : AppState)
    (dateIdx merchantIdx amountIdx typeIdx categoryIdx accountIdx noteIdx : Int)
    (n : Nat) (r : List Str) (tx : Transaction)
    (h : importRowTx state dateIdx merchantIdx amountIdx typeIdx categoryIdx accountIdx noteIdx n r = some tx) :
    tx.date = (cellAt r dateIdx).take 10 := by
  unfold importRowTx at h
  dsimp only at h
  split at h
  · exact absurd h (by simp)
  · split at h
    · exact absurd h (by simp)
    · obtain rfl := Option.some_injective _ h.symm
      rfl

/-- C10 witness: a row whose date cell is the non-calendar datetime string
`2025-13-99T25:61:00` is imported, and the stored date is its first ten
characters `2025-13-99` — truncated, not validated. -/
theorem C10_import_date_witness :
    ((importRowTx emptyState 0 1 2 (-1) (-1) (-1) (-1) 1
        [str "2025-13-99T25:61:00", str "X", str "5"]).map (fun t => t.date)) =
      some (str "2025-13-99") := by
  cases h : importRowTx emptyState 0 1 2 (-1) (-1) (-1) (-1) 1
      [str "2025-13-99T25:61:00", str "X", str "5"] with
  | none => exact absurd h (by decide)
  | some tx =>
    have hd := C10_import_date_truncation emptyState 0 1 2 (-1) (-1) (-1) (-1) 1
      [str "2025-13-99T25:61:00", str "X", str "5"] tx h
    have hm : Option.map (fun t : Transaction => t.date) (some tx) = some tx.date := rfl
    rw [hm, hd]
    decide

/-! ## C8: budget rows -/

/-- C8: budget rows are exactly the categories with a positive monthly
budget (the sort only permutes the per-category rows); every row satisfies
`remaining = budget − spent` with no clamping — the identity holds even when
spending exceeds the budget, so `remaining` goes negative — and the rows are
sorted by `spent` descending. -/
theorem C8_budget_rows_postcondition (categories : List Category)
    (transactions : List Transaction) (rangeMin rangeMax : Str) :
    ((budgetStatsOf categories transactions rangeMin rangeMax).rows.Perm
      (((categories.filter (fun c => (c.monthlyBudgetCents.getD 0) > 0)).map
          (fun c => (c.id, c.monthlyBudgetCents.getD 0))).map
        (budgetRowFor (groupExpenseByCategory
          (transactions.filter (fun t => dateInRange t.date rangeMin rangeMax)))))) ∧
    ((budgetStatsOf categories transactions rangeMin rangeMax).rows.map
        (fun r => r.categoryId)).Perm
      ((categories.filter (fun c => (c.monthlyBudgetCents.getD 0) > 0)).map
        (fun c => c.id)) ∧
    (∀ row ∈ (budgetStatsOf categories transactions rangeMin rangeMax).rows,
      row.remainingCents = row.budgetCents - row.spentCents ∧ 0 < row.budgetCents) ∧
    (budgetStatsOf categories transactions rangeMin rangeMax).rows.Sorted spentGe := by
  have hperm :
      (budgetStatsOf categories transactions rangeMin rangeMax).rows.Perm
        (((categories.filter (fun c => (c.monthlyBudgetCents.getD 0) > 0)).map
            (fun c => (c.id, c.monthlyBudgetCents.getD 0))).map
          (budgetRowFor (groupExpenseByCategory
            (transactions.filter (fun t => dateInRange t.date rangeMin rangeMax))))) := by
    unfold budgetStatsOf
    exact List.perm_insertionSort spentGe _
  refine ⟨hperm, ?_, ?_, ?_⟩
  · have h2 := hperm.map (fun r => r.categoryId)
    refine h2.trans ?_
    rw [List.map_map, List.map_map]
    exact List.Perm.refl _
  · intro row hrow
    have hmem := hperm.subset hrow
    obtain ⟨b, hb, rfl⟩ := List.mem_map.1 hmem
    obtain ⟨c, hc, rfl⟩ := List.mem_map.1 hb
    refine ⟨rfl, ?_⟩
    have := List.of_mem_filter hc
    simpa [budgetRowFor] using this
  · haveI : IsTotal BudgetRow spentGe :=
      ⟨fun a b => by unfold spentGe; exact le_total _ _⟩
    haveI : IsTrans BudgetRow spentGe :=
      ⟨fun a b c hab hbc => by unfold spentGe at *; exact le_trans hbc hab⟩
    unfold budgetStatsOf
    exact List.sorted_insertionSort spentGe _

/-- C8 witness: one over-budget category (budget 100 cents, 250 cents
spent).  By the theorem its row keeps `remaining = budget − spent`; the
computed value is −150, i.e. unclamped and negative. -/
theorem C8_budget_rows_witness :
    (((budgetStatsOf
        [{ id := str "c1", name := str "Food", emoji := none, monthlyBudgetCents := some 100 }]
        [{ id := str "t", date := str "2025-01-05", merchant := str "Shop", amountCents := 250,
           type := TxType.expense, categoryId := str "c1", accountId := str "a", note := none }]
        (str "2025-01-01") (str "2025-01-31")).rows.headD
      { categoryId := [], budgetCents := 0, spentCents := 0, remainingCents := 0 }).remainingCents =
      ((budgetStatsOf
        [{ id := str "c1", name := str "Food", emoji := none, monthlyBudgetCents := some 100 }]
        [{ id := str "t", date := str "2025-01-05", merchant := str "Shop", amountCents := 250,
           type := TxType.expense, categoryId := str "c1", accountId := str "a", note := none }]
        (str "2025-01-01") (str "2025-01-31")).rows.headD
      { categoryId := [], budgetCents := 0, spentCents := 0, remainingCents := 0 }).budgetCents -
      ((budgetStatsOf
        [{ id := str "c1", name := str "Food", emoji := none, monthlyBudgetCents := some 100 }]
        [{ id := str "t", date := str "2025-01-05", merchant := str "Shop", amountCents := 250,
           type := TxType.expense, categoryId := str "c1", accountId := str "a", note := none }]
        (str "2025-01-01") (str "2025-01-31")).rows.headD
      { categoryId := [], budgetCents := 0, spentCents := 0, remainingCents := 0 }).spentCents) ∧
    (((budgetStatsOf
        [{ id := str "c1", name := str "Food", emoji := none, monthlyBudgetCents := some 100 }]
        [{ id := str "t", date := str "2025-01-05", merchant := str "Shop", amountCents := 250,
           type := TxType.expense, categoryId := str "c1", accountId := str "a", note := none }]
        (str "2025-01-01") (str "2025-01-31")).rows.headD
      { categoryId := [], budgetCents := 0, spentCents := 0, remainingCents := 0 }).remainingCents = -150) := by
  constructor
  · exact ((C8_budget_rows_postcondition
      [{ id := str "c1", name := str "Food", emoji := none, monthlyBudgetCents := some 100 }]
      [{ id := str "t", date := str "2025-01-05", merchant := str "Shop", amountCents := 250,
         type := TxType.expense, categoryId := str "c1", accountId := str "a", note := none }]
      (str "2025-01-01") (str "2025-01-31")).2.2.1 _ (by decide)).1
  · decide

/-! ## String-order lemmas (for the date sorts) -/

theorem strLt_irrefl (a : Str) : strLt a a = false := by
  induction a with
  | nil => rfl
  | cons c t ih => simp [strLt, ih]

theorem strLt_trans {a b c : Str} (h1 : strLt a b = true) (h2 : strLt b c = true) :
    strLt a c = true := by
  induction a generalizing b c with
  | nil =>
    cases c with
    | nil =>
      cases b with
      | nil => exact h1
      | cons y u => simp [strLt] at h2
    | cons z v => rfl
  | cons x t ih =>
    cases b with
    | nil => simp [strLt] at h1
    | cons y u =>
      cases c with
      | nil => simp [strLt] at h2
      | cons z v =>
        simp only [strLt] at h1 h2 ⊢
        rcases lt_trichotomy x y with hxy | hxy | hxy
        · rcases lt_trichotomy y z with hyz | hyz | hyz
          · rw [if_pos (lt_trans hxy hyz)]
          · subst hyz
            rw [if_pos hxy]
          · rw [if_neg (lt_asymm hyz), if_pos hyz] at h2
            exact absurd h2 (by simp)
        · subst hxy
          rw [if_neg (lt_irrefl x)] at h1
          rw [if_neg (lt_irrefl x)] at h1
          rcases lt_trichotomy x z with hxz | hxz | hxz
          · rw [if_pos hxz]
          · subst hxz
            rw [if_neg (lt_irrefl x)] at h2
            rw [if_neg (lt_irrefl x)] at h2
            rw [if_neg (lt_irrefl x), if_neg (lt_irrefl x)]
            exact ih h1 h2
          · rw [if_neg (lt_asymm hxz), if_pos hxz] at h2
            exact absurd h2 (by simp)
        · rw [if_neg (lt_asymm hxy), if_pos hxy] at h1
          exact absurd h1 (by simp)

theorem strLt_connex {a b : Str} (hab : strLt a b = false) (hba : strLt b a = false) :
    a = b := by
  induction a generalizing b with
  | nil =>
    cases b with
    | nil => rfl
    | cons y u => simp [strLt] at hab
  | cons x t ih =>
    cases b with
    | nil => simp [strLt] at hba
    | cons y u =>
      simp only [strLt] at hab hba
      rcases lt_trichotomy x y with hxy | hxy | hxy
      · rw [if_pos hxy] at hab
        exact absurd hab (by simp)
      · subst hxy
        rw [if_neg (lt_irrefl x), if_neg (lt_irrefl x)] at hab hba
        rw [ih hab hba]
      · rw [if_pos hxy] at hba
        exact absurd hba (by simp)

theorem strLt_asymm {a b : Str} (h : strLt a b = true) : strLt b a = false := by
  cases hba : strLt b a with
  | false => rfl
  | true =>
    have := strLt_trans h hba
    rw [strLt_irrefl] at this
    exact absurd this (by simp)

theorem strLe_total (a b : Str) : strLe a b = true ∨ strLe b a = true := by
  unfold strLe
  cases h : strLt b a with
  | false => exact Or.inl rfl
  | true => exact Or.inr (by rw [strLt_asymm h]; rfl)

theorem strLe_trans {a b c : Str} (h1 : strLe a b = true) (h2 : strLe b c = true) :
    strLe a c = true := by
  unfold strLe at *
  cases hca : strLt c a with
  | false => rfl
  | true =>
    exfalso
    have hba : strLt b a = false := by
      cases hx : strLt b a
      · rfl
      · rw [hx] at h1; exact absurd h1 (by simp)
    have hcb : strLt c b = false := by
      cases hx : strLt c b
      · rfl
      · rw [hx] at h2; exact absurd h2 (by simp)
    cases hab : strLt a b with
    | true =>
      have := strLt_trans hca hab
      rw [this] at hcb
      exact Bool.noConfusion hcb
    | false =>
      obtain rfl := strLt_connex hab hba
      rw [hca] at hcb
      exact Bool.noConfusion hcb

theorem strLt_of_le_of_ne {a b : Str} (h : strLe a b = true) (hne : a ≠ b) :
    strLt a b = true := by
  unfold strLe at h
  cases hab : strLt a b with
  | true => rfl
  | false =>
    exfalso
    have hba : strLt b a = false := by
      cases hx : strLt b a
      · rfl
      · rw [hx] at h; exact absurd h (by simp)
    exact hne (strLt_connex hab hba)

/-! ## Map-model lemmas -/

theorem mapGet_eq_some_mem {α : Type} {m : List (Str × α)} {k : Str} {v : α}
    (h : mapGet m k = some v) : (k, v) ∈ m := by
  induction m with
  | nil => simp [mapGet] at h
  | cons p rest ih =>
    obtain ⟨k0, v0⟩ := p
    rw [mapGet] at h
    by_cases hk : k0 = k
    · rw [if_pos hk] at h
      obtain rfl := Option.some_injective _ h
      subst hk
      exact List.mem_cons_self _ _
    · rw [if_neg hk] at h
      exact List.mem_cons_of_mem _ (ih h)

theorem mem_mapSet {α : Type} {m : List (Str × α)} {k : Str} {v : α} {p : Str × α}
    (h : p ∈ mapSet m k v) : p = (k, v) ∨ p ∈ m := by
  induction m with
  | nil => simpa [mapSet] using h
  | cons q rest ih =>
    obtain ⟨k0, v0⟩ := q
    rw [mapSet] at h
    by_cases hk : k0 = k
    · rw [if_pos hk] at h
      rcases List.mem_cons.1 h with h0 | h1
      · exact Or.inl h0
      · exact Or.inr (List.mem_cons_of_mem _ h1)
    · rw [if_neg hk] at h
      rcases List.mem_cons.1 h with h0 | h1
      · exact Or.inr (h0 ▸ List.mem_cons_self _ _)
      · rcases ih h1 with h2 | h2
        · exact Or.inl h2
        · exact Or.inr (List.mem_cons_of_mem _ h2)

theorem keys_mapSet {α : Type} (m : List (Str × α)) (k : Str) (v : α) :
    (mapSet m k v).map Prod.fst =
      if k ∈ m.map Prod.fst then m.map Prod.fst else m.map Prod.fst ++ [k] := by
  induction m with
  | nil => simp [mapSet]
  | cons q rest ih =>
    obtain ⟨k0, v0⟩ := q
    rw [mapSet]
    by_cases hk : k0 = k
    · subst hk
      rw [if_pos rfl]
      rw [if_pos (by rw [List.map_cons]; exact List.mem_cons_self _ _)]
      rfl
    · rw [if_neg hk]
      simp only [List.map_cons]
      rw [ih]
      by_cases hmem : k ∈ rest.map Prod.fst
      · rw [if_pos hmem, if_pos (List.mem_cons_of_mem _ hmem)]
      · rw [if_neg hmem,
          if_neg (by
            intro hcon
            rcases List.mem_cons.1 hcon with h0 | h1
            · exact hk h0.symm
            · exact hmem h1)]
        rfl

theorem mapGet_eq_none_iff {α : Type} (m : List (Str × α)) (k : Str) :
    mapGet m k = none ↔ k ∉ m.map Prod.fst := by
  induction m with
  | nil => simp [mapGet]
  | cons q rest ih =>
    obtain ⟨k0, v0⟩ := q
    rw [mapGet]
    by_cases hk : k0 = k
    · subst hk
      rw [if_pos rfl]
      constructor
      · intro h
        exact absurd h (by simp)
      · intro h
        exact absurd (by rw [List.map_cons]; exact List.mem_cons_self _ _) h
    · rw [if_neg hk, ih]
      constructor
      · intro h hmem
        rw [List.map_cons] at hmem
        rcases List.mem_cons.1 hmem with h0 | h1
        · exact hk h0.symm
        · exact h h1
      · intro h hmem
        exact h (by rw [List.map_cons]; exact List.mem_cons_of_mem _ hmem)

theorem sum_mapSet_none {α : Type} (f : α → Int) (m : List (Str × α)) (k : Str) (v : α)
    (h : mapGet m k = none) :
    ((mapSet m k v).map (fun p => f p.2)).sum = (m.map (fun p => f p.2)).sum + f v := by
  induction m with
  | nil => simp [mapSet]
  | cons q rest ih =>
    obtain ⟨k0, v0⟩ := q
    rw [mapGet] at h
    by_cases hk : k0 = k
    · rw [if_pos hk] at h
      exact absurd h (by simp)
    · rw [if_neg hk] at h
      rw [mapSet, if_neg hk]
      simp only [List.map_cons, List.sum_cons, ih h]
      ring

theorem sum_mapSet_some {α : Type} (f : α → Int) (m : List (Str × α)) (k : Str) (v e : α)
    (h : mapGet m k = some e) :
    ((mapSet m k v).map (fun p => f p.2)).sum = (m.map (fun p => f p.2)).sum - f e + f v := by
  induction m with
  | nil => simp [mapGet] at h
  | cons q rest ih =>
    obtain ⟨k0, v0⟩ := q
    rw [mapGet] at h
    by_cases hk : k0 = k
    · rw [if_pos hk] at h
      obtain rfl := Option.some_injective _ h
      rw [mapSet, if_pos hk]
      simp only [List.map_cons, List.sum_cons]
      ring
    · rw [if_neg hk] at h
      rw [mapSet, if_neg hk]
      simp only [List.map_cons, List.sum_cons, ih h]
      ring

/-! ## C9: cashflow series -/

theorem dayNetStep_entries {m : List (Str × DayNet)} {t : Transaction}
    (h0 : ∀ p ∈ m, (p : Str × DayNet).2.date = p.1 ∧
      p.2.netCents = p.2.incomeCents - p.2.expenseCents) :
    ∀ p ∈ dayNetStep m t, p.2.date = p.1 ∧
      p.2.netCents = p.2.incomeCents - p.2.expenseCents := by
  intro p hp
  unfold dayNetStep at hp
  dsimp only at hp
  rcases mem_mapSet hp with rfl | hmem
  · have hgetd :
        ((mapGet m t.date).getD
            { date := t.date, netCents := 0, incomeCents := 0, expenseCents := 0 }).date = t.date ∧
        ((mapGet m t.date).getD
            { date := t.date, netCents := 0, incomeCents := 0, expenseCents := 0 }).netCents =
          ((mapGet m t.date).getD
              { date := t.date, netCents := 0, incomeCents := 0, expenseCents := 0 }).incomeCents -
          ((mapGet m t.date).getD
              { date := t.date, netCents := 0, incomeCents := 0, expenseCents := 0 }).expenseCents := by
      cases hg : mapGet m t.date with
      | none => simp
      | some e => simpa using h0 (t.date, e) (mapGet_eq_some_mem hg)
    obtain ⟨he1, he2⟩ := hgetd
    by_cases hty : t.type = TxType.income <;> simp [hty] <;> exact ⟨he1, by omega⟩
  · exact h0 p hmem

theorem dayNetStep_keys_nodup {m : List (Str × DayNet)} {t : Transaction}
    (h : (m.map Prod.fst).Nodup) : ((dayNetStep m t).map Prod.fst).Nodup := by
  unfold dayNetStep
  dsimp only
  rw [keys_mapSet]
  split
  · exact h
  · next hnot =>
    rw [List.nodup_append]
    exact ⟨h, List.nodup_singleton _, by simpa using hnot⟩

theorem dayNetStep_keys_mem {m : List (Str × DayNet)} {t : Transaction} (k : Str) :
    k ∈ (dayNetStep m t).map Prod.fst ↔ k ∈ m.map Prod.fst ∨ k = t.date := by
  unfold dayNetStep
  dsimp only
  rw [keys_mapSet]
  split
  · next hin =>
    constructor
    · exact Or.inl
    · rintro (h | rfl)
      · exact h
      · exact hin
  · next hnot =>
    simp [List.mem_append]

theorem dayNetStep_sum {m : List (Str × DayNet)} {t : Transaction} :
    ((dayNetStep m t).map (fun p => p.2.netCents)).sum =
      (m.map (fun p => p.2.netCents)).sum +
        (if t.type = TxType.income then t.amountCents else -t.amountCents) := by
  unfold dayNetStep
  dsimp only
  cases hg : mapGet m t.date with
  | none =>
    rw [sum_mapSet_none (fun d => d.netCents) _ _ _ hg]
    by_cases hty : t.type = TxType.income <;> simp [hty]
  | some e =>
    rw [sum_mapSet_some (fun d => d.netCents) _ _ _ _ hg]
    by_cases hty : t.type = TxType.income <;> simp [hty] <;> ring

theorem dayNetFold_entries (txs : List Transaction) (m0 : List (Str × DayNet))
    (h0 : ∀ p ∈ m0, (p : Str × DayNet).2.date = p.1 ∧
      p.2.netCents = p.2.incomeCents - p.2.expenseCents) :
    ∀ p ∈ txs.foldl dayNetStep m0, p.2.date = p.1 ∧
      p.2.netCents = p.2.incomeCents - p.2.expenseCents := by
  induction txs generalizing m0 with
  | nil => exact h0
  | cons t rest ih =>
    rw [List.foldl_cons]
    exact ih (dayNetStep m0 t) (dayNetStep_entries h0)

theorem dayNetFold_nodup (txs : List Transaction) (m0 : List (Str × DayNet))
    (h0 : (m0.map Prod.fst).Nodup) :
    ((txs.foldl dayNetStep m0).map Prod.fst).Nodup := by
  induction txs generalizing m0 with
  | nil => exact h0
  | cons t rest ih =>
    rw [List.foldl_cons]
    exact ih (dayNetStep m0 t) (dayNetStep_keys_nodup h0)

theorem dayNetFold_keys (txs : List Transaction) (m0 : List (Str × DayNet)) (k : Str) :
    k ∈ (txs.foldl dayNetStep m0).map Prod.fst ↔
      k ∈ m0.map Prod.fst ∨ k ∈ txs.map (fun t => t.date) := by
  induction txs generalizing m0 with
  | nil => simp
  | cons t rest ih =>
    rw [List.foldl_cons, ih, dayNetStep_keys_mem]
    simp only [List.map_cons, List.mem_cons]
    constructor
    · rintro ((h | h) | h)
      · exact Or.inl h
      · exact Or.inr (Or.inl h)
      · exact Or.inr (Or.inr h)
    · rintro (h | h | h)
      · exact Or.inl (Or.inl h)
      · exact Or.inl (Or.inr h)
      · exact Or.inr h

theorem dayNetFold_sum (txs : List Transaction) (m0 : List (Str × DayNet)) :
    ((txs.foldl dayNetStep m0).map (fun p => p.2.netCents)).sum =
      (m0.map (fun p => p.2.netCents)).sum + (incomeSum txs - expenseSum txs) := by
  induction txs generalizing m0 with
  | nil => simp [incomeSum, expenseSum]
  | cons t rest ih =>
    rw [List.foldl_cons, ih, dayNetStep_sum]
    by_cases hty : t.type = TxType.income
    · have hne : t.type ≠ TxType.expense := by simp [hty]
      simp only [incomeSum, expenseSum, List.filter_cons, hty, hne]
      simp
      ring
    · have he : t.type = TxType.expense := by
        cases ht : t.type
        · rfl
        · exact absurd ht hty
      simp only [incomeSum, expenseSum, List.filter_cons, hty, he]
      simp
      ring

theorem cashflowAux_length (running : Int) (daily : List DayNet) :
    (cashflowAux running daily).length = daily.length := by
  induction daily generalizing running with
  | nil => rfl
  | cons d rest ih => simp [cashflowAux, ih]

theorem cashflowAux_get (running : Int) (daily : List DayNet) (i : Nat)
    (h : i < (cashflowAux running daily).length) :
    ((cashflowAux running daily).get ⟨i, h⟩).runningCents =
      running + ((daily.take (i + 1)).map (fun d => d.netCents)).sum := by
  induction daily generalizing running i with
  | nil => simp [cashflowAux] at h
  | cons d rest ih =>
    cases i with
    | zero => simp [cashflowAux]
    | succ j =>
      have h2 : j < (cashflowAux (running + d.netCents) rest).length := by
        have := h
        simp only [cashflowAux, List.length_cons] at this
        omega
      have hstep :
          ((cashflowAux running (d :: rest)).get ⟨j + 1, h⟩).runningCents =
            ((cashflowAux (running + d.netCents) rest).get ⟨j, h2⟩).runningCents := by
        simp [cashflowAux]
      rw [hstep, ih]
      simp only [List.take_succ_cons, List.map_cons, List.sum_cons]
      ring

theorem cashflowAux_lastD (running : Int) (daily : List DayNet) :
    ((cashflowAux running daily).map (fun p => p.runningCents)).getLastD running =
      running + (daily.map (fun d => d.netCents)).sum := by
  induction daily generalizing running with
  | nil => simp [cashflowAux]
  | cons d rest ih =>
    simp only [cashflowAux, List.map_cons, List.getLastD_cons, List.sum_cons]
    rw [ih (running + d.netCents)]
    ring

/-- C9: for every input transaction list, the cashflow series has exactly
one point per distinct transaction date (the grouped days are duplicate-free
and carry exactly the input's dates), the days are strictly ascending by
date, each day's net is its income minus its expense, each series point's
running balance is the sum of the daily nets up to and including that day,
and the final running balance is the list's total income minus total
expense. -/
theorem C9_cashflow_series (txs : List Transaction) :
    (cashflowOf txs).length = (groupByDayNet txs.reverse).length ∧
    ((groupByDayNet txs.reverse).map (fun d => d.date)).Nodup ∧
    (∀ d0 : Str, d0 ∈ (groupByDayNet txs.reverse).map (fun d => d.date) ↔
      d0 ∈ txs.map (fun t => t.date)) ∧
    (groupByDayNet txs.reverse).Pairwise (fun a b => strLt a.date b.date = true) ∧
    (∀ d ∈ groupByDayNet txs.reverse, d.netCents = d.incomeCents - d.expenseCents) ∧
    (∀ (i : Nat) (h : i < (cashflowOf txs).length),
      ((cashflowOf txs).get ⟨i, h⟩).runningCents =
        (((groupByDayNet txs.reverse).take (i + 1)).map (fun d => d.netCents)).sum) ∧
    (((cashflowOf txs).map (fun p => p.runningCents)).getLastD 0 =
      incomeSum txs - expenseSum txs) := by
  haveI : IsTotal DayNet dayLe := ⟨fun a b => by unfold dayLe; exact strLe_total _ _⟩
  haveI : IsTrans DayNet dayLe :=
    ⟨fun a b c hab hbc => by unfold dayLe at *; exact strLe_trans hab hbc⟩
  have hperm : (groupByDayNet txs.reverse).Perm
      ((txs.reverse.foldl dayNetStep []).map Prod.snd) := by
    unfold groupByDayNet
    exact List.perm_insertionSort dayLe _
  have hentries := dayNetFold_entries txs.reverse [] (by simp)
  have hdaily_entries : ∀ d ∈ groupByDayNet txs.reverse,
      d.netCents = d.incomeCents - d.expenseCents := by
    intro d hd
    obtain ⟨p, hp, rfl⟩ := List.mem_map.1 (hperm.subset hd)
    exact (hentries p hp).2
  have hdates_eq : ((txs.reverse.foldl dayNetStep []).map Prod.snd).map (fun d => d.date) =
      (txs.reverse.foldl dayNetStep []).map Prod.fst := by
    rw [List.map_map]
    exact List.map_congr_left (fun p hp => (hentries p hp).1)
  have hdates_perm : ((groupByDayNet txs.reverse).map (fun d => d.date)).Perm
      ((txs.reverse.foldl dayNetStep []).map Prod.fst) := by
    rw [← hdates_eq]
    exact hperm.map _
  have hnodup : ((groupByDayNet txs.reverse).map (fun d => d.date)).Nodup :=
    (hdates_perm.nodup_iff).2 (dayNetFold_nodup txs.reverse [] (by simp))
  have hmem : ∀ d0 : Str, d0 ∈ (groupByDayNet txs.reverse).map (fun d => d.date) ↔
      d0 ∈ txs.map (fun t => t.date) := by
    intro d0
    rw [hdates_perm.mem_iff, dayNetFold_keys]
    simp [List.mem_reverse]
  have hsorted : (groupByDayNet txs.reverse).Pairwise dayLe := by
    unfold groupByDayNet
    exact List.sorted_insertionSort dayLe _
  have hpairne : (groupByDayNet txs.reverse).Pairwise (fun a b => a.date ≠ b.date) := by
    have := hnodup
    rw [List.nodup_iff_sublist] at this
    · exact (List.pairwise_map.1 hnodup)
  have hstrict : (groupByDayNet txs.reverse).Pairwise
      (fun a b => strLt a.date b.date = true) := by
    have hcomb := hsorted.and hpairne
    exact hcomb.imp (fun h => strLt_of_le_of_ne h.1 h.2)
  have hsumrev : incomeSum txs.reverse - expenseSum txs.reverse =
      incomeSum txs - expenseSum txs := by
    unfold incomeSum expenseSum
    rw [List.filter_reverse, List.filter_reverse, List.map_reverse, List.map_reverse,
      List.sum_reverse, List.sum_reverse]
  have htotal : ((groupByDayNet txs.reverse).map (fun d => d.netCents)).sum =
      incomeSum txs - expenseSum txs := by
    have hp2 := (hperm.map (fun d => d.netCents)).sum_eq
    rw [hp2, List.map_map]
    have := dayNetFold_sum txs.reverse []
    simp only [List.map_nil, List.sum_nil, zero_add] at this
    rw [show ((txs.reverse.foldl dayNetStep []).map ((fun d => d.netCents) ∘ Prod.snd)) =
        ((txs.reverse.foldl dayNetStep []).map (fun p => p.2.netCents)) from rfl]
    rw [this, hsumrev]
  refine ⟨cashflowAux_length 0 _, hnodup, hmem, hstrict, hdaily_entries, ?_, ?_⟩
  · intro i h
    have hget := cashflowAux_get 0 (groupByDayNet txs.reverse) i h
    rw [zero_add] at hget
    exact hget
  · unfold cashflowOf
    rw [cashflowAux_lastD 0 (groupByDayNet txs.reverse)]
    rw [htotal]
    ring

/-- C9 witness: three transactions over two dates (income 1000 on 01-01,
expenses 300 and 200 on 01-02).  The theorem gives the second point's
running balance as the two-day net sum, and the final running balance as
total income minus total expense — 500 cents. -/
theorem C9_cashflow_witness :
    ((cashflowOf
        [{ id := str "a", date := str "2025-01-02", merchant := str "Shop", amountCents := 300,
           type := TxType.expense, categoryId := str "c", accountId := str "x", note := none },
         { id := str "b", date := str "2025-01-01", merchant := str "Pay", amountCents := 1000,
           type := TxType.income, categoryId := str "ci", accountId := str "x", note := none },
         { id := str "c", date := str "2025-01-02", merchant := str "Cafe", amountCents := 200,
           type := TxType.expense, categoryId := str "c", accountId := str "x", note := none }]).get
      ⟨1, by decide⟩).runningCents =
      (((groupByDayNet
        [{ id := str "a", date := str "2025-01-02", merchant := str "Shop", amountCents := 300,
           type := TxType.expense, categoryId := str "c", accountId := str "x", note := none },
         { id := str "b", date := str "2025-01-01", merchant := str "Pay", amountCents := 1000,
           type := TxType.income, categoryId := str "ci", accountId := str "x", note := none },
         { id := str "c", date := str "2025-01-02", merchant := str "Cafe", amountCents := 200,
           type := TxType.expense, categoryId := str "c", accountId := str "x", note := none }].reverse).take 2).map
        (fun d => d.netCents)).sum ∧
    ((cashflowOf
        [{ id := str "a", date := str "2025-01-02", merchant := str "Shop", amountCents := 300,
           type := TxType.expense, categoryId := str "c", accountId := str "x", note := none },
         { id := str "b", date := str "2025-01-01", merchant := str "Pay", amountCents := 1000,
           type := TxType.income, categoryId := str "ci", accountId := str "x", note := none },
         { id := str "c", date := str "2025-01-02", merchant := str "Cafe", amountCents := 200,
           type := TxType.expense, categoryId := str "c", accountId := str "x", note := none }]).map
      (fun p => p.runningCents)).getLastD 0 = 500 := by
  constructor
  · exact (C9_cashflow_series _).2.2.2.2.2.1 1 (by decide)
  · rw [(C9_cashflow_series _).2.2.2.2.2.2]
    decide

/-! ## C1: CSV round-trip -/

theorem parseCSVAux_nil (b : Bool) (cur : Str) (row : List Str) (acc : List (List Str)) :
    parseCSVAux [] b cur row acc = acc ++ [row ++ [stripCR cur]] := by
  cases b <;> rfl

theorem parseCSVAux_dq (rest cur : Str) (row : List Str) (acc : List (List Str)) :
    parseCSVAux ('"' :: '"' :: rest) true cur row acc =
      parseCSVAux rest true (cur ++ ['"']) row acc := rfl

theorem parseCSVAux_q_end (cur : Str) (row : List Str) (acc : List (List Str)) :
    parseCSVAux ['"'] true cur row acc = parseCSVAux [] false cur row acc := rfl

theorem parseCSVAux_q_true (c2 : Char) (h : c2 ≠ '"') (r2 cur : Str) (row : List Str)
    (acc : List (List Str)) :
    parseCSVAux ('"' :: c2 :: r2) true cur row acc =
      parseCSVAux (c2 :: r2) false cur row acc := by
  rw [parseCSVAux]
  intro rest_1 hx
  injection hx with hx1 _
  exact h hx1

theorem parseCSVAux_char_true (c : Char) (h : c ≠ '"') (rest cur : Str) (row : List Str)
    (acc : List (List Str)) :
    parseCSVAux (c :: rest) true cur row acc =
      parseCSVAux rest true (cur ++ [c]) row acc := by
  rw [parseCSVAux]
  all_goals first
    | (intro r1 hx hx2; exact h hx)
    | (intro hx; exact h hx)

theorem parseCSVAux_q_false (rest cur : Str) (row : List Str) (acc : List (List Str)) :
    parseCSVAux ('"' :: rest) false cur row acc = parseCSVAux rest true cur row acc := by
  cases rest with
  | nil => rfl
  | cons c2 r2 => conv_lhs => rw [parseCSVAux]

theorem parseCSVAux_comma (rest cur : Str) (row : List Str) (acc : List (List Str)) :
    parseCSVAux (',' :: rest) false cur row acc =
      parseCSVAux rest false [] (row ++ [cur]) acc := rfl

theorem parseCSVAux_nl (rest cur : Str) (row : List Str) (acc : List (List Str)) :
    parseCSVAux ('\n' :: rest) false cur row acc =
      parseCSVAux rest false [] [] (acc ++ [row ++ [stripCR cur]]) := rfl

theorem parseCSVAux_char_false (c : Char) (h1 : c ≠ '"') (h2 : c ≠ ',') (h3 : c ≠ '\n')
    (rest cur : Str) (row : List Str) (acc : List (List Str)) :
    parseCSVAux (c :: rest) false cur row acc =
      parseCSVAux rest false (cur ++ [c]) row acc := by
  rw [parseCSVAux]
  · exact h1
  · exact h2
  · exact h3

theorem joinStrs_single (sep : Char) (x : Str) : joinStrs sep [x] = x := rfl

theorem joinStrs_cons2 (sep : Char) (x : Str) (l : List Str) (h : l ≠ []) :
    joinStrs sep (x :: l) = x ++ sep :: joinStrs sep l := by
  cases l with
  | nil => exact absurd rfl h
  | cons y ys => rfl

theorem rawRow_cons (c0 : Str) (cs : List Str) :
    rawRow (c0 :: cs) = initCells c0 cs ++ [stripCR (lastCell c0 cs)] := rfl

theorem csv_consume_unquoted (s : Str) (hs : ∀ c ∈ s, c ≠ '"' ∧ c ≠ ',' ∧ c ≠ '\n')
    (rest cur : Str) (row : List Str) (acc : List (List Str)) :
    parseCSVAux (s ++ rest) false cur row acc = parseCSVAux rest false (cur ++ s) row acc := by
  induction s generalizing cur with
  | nil => simp
  | cons c t ih =>
    obtain ⟨h1, h2, h3⟩ := hs c (List.mem_cons_self _ _)
    rw [List.cons_append, parseCSVAux_char_false c h1 h2 h3,
      ih (fun x hx => hs x (List.mem_cons_of_mem _ hx)) (cur ++ [c])]
    simp

theorem csv_consume_quoted (s : Str) (rest cur : Str) (row : List Str)
    (acc : List (List Str)) (hrest : rest.head? ≠ some '"') :
    parseCSVAux (doubleQuotes s ++ '"' :: rest) true cur row acc =
      parseCSVAux rest false (cur ++ s) row acc := by
  induction s generalizing cur with
  | nil =>
    rw [doubleQuotes, List.nil_append]
    cases rest with
    | nil =>
      rw [parseCSVAux_q_end]
      simp
    | cons c2 r2 =>
      have hc2 : c2 ≠ '"' := by simpa using hrest
      rw [parseCSVAux_q_true c2 hc2]
      simp
  | cons c t ih =>
    by_cases hc : c = '"'
    · subst hc
      rw [doubleQuotes, if_pos rfl, List.cons_append, List.cons_append, parseCSVAux_dq,
        ih (cur ++ ['"'])]
      simp
    · rw [doubleQuotes, if_neg hc, List.cons_append, parseCSVAux_char_true c hc,
        ih (cur ++ [c])]
      simp

theorem csv_cell (s rest : Str) (row : List Str) (acc : List (List Str))
    (hrest : rest.head? ≠ some '"') :
    parseCSVAux (csvEscape s ++ rest) false [] row acc =
      parseCSVAux rest false s row acc := by
  unfold csvEscape
  by_cases hq : needsQuote s
  · rw [if_pos hq, List.cons_append, List.append_assoc,
      show (['"'] : Str) ++ rest = '"' :: rest from rfl, parseCSVAux_q_false,
      csv_consume_quoted s rest [] row acc hrest, List.nil_append]
  · rw [if_neg hq]
    have hs : ∀ c ∈ s, c ≠ '"' ∧ c ≠ ',' ∧ c ≠ '\n' := by
      intro c hc
      refine ⟨fun h => hq ?_, fun h => hq ?_, fun h => hq ?_⟩ <;>
        · unfold needsQuote
          rw [List.any_eq_true]
          exact ⟨c, hc, by subst h; decide⟩
    rw [csv_consume_unquoted s hs rest [] row acc, List.nil_append]

theorem csv_row (cs : List Str) (c0 : Str) (rest : Str) (row : List Str)
    (acc : List (List Str)) (hrest : rest.head? ≠ some '"') :
    parseCSVAux (joinStrs ',' ((c0 :: cs).map csvEscape) ++ rest) false [] row acc =
      parseCSVAux rest false (lastCell c0 cs) (row ++ initCells c0 cs) acc := by
  induction cs generalizing c0 row with
  | nil =>
    rw [List.map_cons, List.map_nil, joinStrs_single, csv_cell c0 rest row acc hrest]
    rw [lastCell, initCells, List.append_nil]
  | cons c1 ct ih =>
    rw [List.map_cons, joinStrs_cons2 ',' _ _ (by simp), List.append_assoc,
      show ((',' :: joinStrs ',' ((c1 :: ct).map csvEscape)) ++ rest : Str) =
        ',' :: (joinStrs ',' ((c1 :: ct).map csvEscape) ++ rest) from rfl,
      csv_cell c0 _ row acc (by simp), parseCSVAux_comma, ih c1 (row ++ [c0])]
    rw [lastCell, initCells, List.append_assoc]
    rfl

theorem csv_text (rows : List (List Str)) (acc : List (List Str))
    (h0 : rows ≠ []) (hne : ∀ r ∈ rows, r ≠ []) :
    parseCSVAux (joinStrs '\n' (rows.map (fun r => joinStrs ',' (r.map csvEscape))))
        false [] [] acc = acc ++ rows.map rawRow := by
  induction rows generalizing acc with
  | nil => exact absurd rfl h0
  | cons r rs ih =>
    cases hr : r with
    | nil => exact absurd hr (hne r (List.mem_cons_self _ _))
    | cons cell0 cells =>
      cases rs with
      | nil =>
        rw [List.map_cons, List.map_nil, joinStrs_single]
        have hrow := csv_row cells cell0 [] [] acc (by simp)
        rw [List.append_nil] at hrow
        rw [hrow, parseCSVAux_nil, List.map_cons, List.map_nil, rawRow_cons]
        simp
      | cons r2 rs2 =>
        rw [List.map_cons, joinStrs_cons2 '\n' _ _ (by simp)]
        rw [csv_row cells cell0 _ [] acc (by simp), parseCSVAux_nl,
          ih _ (by simp) (fun x hx => hne x (List.mem_cons_of_mem _ hx))]
        simp [rawRow_cons]

theorem parse_serialized_rows (header : List Str) (rows : List (List Str))
    (hh : header ≠ []) (hr : ∀ r ∈ rows, r ≠ []) :
    parseCSVText (joinStrs '\n' ((header :: rows).map (fun r => joinStrs ',' (r.map csvEscape)))) =
      (((header :: rows).map rawRow).map (fun r => r.map trimStr)).filter
        (fun r => r.any (fun c => c.length > 0)) := by
  unfold parseCSVText
  rw [csv_text (header :: rows) [] (by simp) ?hne, List.nil_append]
  case hne =>
    intro r hrm
    rcases List.mem_cons.1 hrm with rfl | hmem
    · exact hh
    · exact hr r hmem

/-- C1 counterexample: the field `a, ` (comma plus trailing space) contains
a comma, but escaping it and parsing it back yields `a,` — `parseCSVText`
trims every cell, so the field does not survive the round trip unchanged. -/
theorem C1_field_round_trip_refuted :
    ((str "a, ").any (fun c => c = ',' || c = '"') = true) ∧
    parseCSVText (csvEscape (str "a, ")) = [[str "a,"]] ∧
    parseCSVText (csvEscape (str "a, ")) ≠ [[str "a, "]] :=
  ⟨by decide, by decide, by decide⟩

/-- C1 (amended): serializing any app state — the fixed 7-column header
plus one `csvEscape`-escaped row per transaction, rows joined by newlines —
and applying `parseCSVText` yields exactly one header row plus one data row
per transaction; and a field containing a comma or a double quote survives
`csvEscape` then `parseCSVText` unchanged provided it contains no carriage
return and carries no leading or trailing whitespace (`parseCSVText` trims
every cell and strips `\r`, so exactly the trim-invariant, `\r`-free fields
are recovered verbatim). -/
theorem C1_csv_round_trip :
    (∀ state : AppState,
      (parseCSVText (exportCSVString state)).length = 1 + state.transactions.length) ∧
    (∀ s : Str, s.any (fun c => c = ',' || c = '"') = true → '\r' ∉ s → trimStr s = s →
      parseCSVText (csvEscape s) = [[s]]) := by
  constructor
  · intro state
    unfold exportCSVString
    rw [parse_serialized_rows exportHeader _ (by decide) ?hrows]
    case hrows =>
      intro r hrm
      rcases List.mem_map.1 hrm with ⟨t, _, rfl⟩
      simp [exportRowOf]
    rw [List.filter_eq_self.2 ?keep]
    case keep =>
      intro r hrm
      rcases List.mem_map.1 hrm with ⟨r1, hr1, rfl⟩
      rcases List.mem_map.1 hr1 with ⟨r2, hr2, rfl⟩
      rcases List.mem_cons.1 hr2 with rfl | hmem
      · decide
      · rcases List.mem_map.1 hmem with ⟨t, _, rfl⟩
        have hshape : rawRow (exportRowOf
            (mapOfPairs (state.categories.map (fun c => (c.id, c.name))))
            (mapOfPairs (state.accounts.map (fun a => (a.id, a.name)))) t) =
            [t.date, t.merchant, centsToAmountStr t.amountCents, txTypeStr t.type,
             (mapGet (mapOfPairs (state.categories.map (fun c => (c.id, c.name)))) t.categoryId).getD [],
             (mapGet (mapOfPairs (state.accounts.map (fun a => (a.id, a.name)))) t.accountId).getD [],
             stripCR (t.note.getD [])] := rfl
        rw [hshape]
        simp only [List.map_cons, List.any_cons, Bool.or_eq_true, decide_eq_true_eq]
        refine Or.inr (Or.inr (Or.inr (Or.inl ?_)))
        cases t.type <;> decide
    simp only [List.length_map, List.length_cons]
    rw [(List.perm_insertionSort txDateGe state.transactions).length_eq]
    omega
  · intro s hspec hcr htrim
    have hne : s ≠ [] := by
      obtain ⟨c, hc, _⟩ := List.any_eq_true.1 hspec
      intro h
      rw [h] at hc
      exact absurd hc (List.not_mem_nil c)
    have hstrip : stripCR s = s := by
      unfold stripCR
      apply List.filter_eq_self.2
      intro c hc
      simp only [decide_eq_true_eq]
      intro h
      subst h
      exact hcr hc
    have h0 : parseCSVAux (csvEscape s) false [] [] [] = [[s]] := by
      have hcell := csv_cell s [] [] [] (by simp)
      rw [List.append_nil] at hcell
      rw [hcell, parseCSVAux_nil, hstrip]
      rfl
    unfold parseCSVText
    rw [h0]
    simp only [List.map_cons, List.map_nil, htrim, List.filter_cons]
    have hlen : 0 < s.length := List.length_pos.2 hne
    simp [hlen]

/-- C1 witness: the empty state's export parses back to exactly the header
row, and the field `a,"b` (comma and quote, no edge whitespace) survives
escape-then-parse unchanged. -/
theorem C1_csv_round_trip_witness :
    (parseCSVText (exportCSVString emptyState)).length = 1 ∧
    parseCSVText (csvEscape (str "a,\"b")) = [[str "a,\"b"]] := by
  constructor
  · rw [C1_csv_round_trip.1 emptyState]
    decide
  · exact C1_csv_round_trip.2 (str "a,\"b") (by decide) (by decide) (by decide)

/-! ## C4: previous date range -/

set_option maxHeartbeats 2000000 in
theorem toDays_predDay (d : CivilDate) (h : validDate d) :
    toDays (predDay d) = toDays d - 1 := by
  obtain ⟨y, m, day⟩ := d
  obtain ⟨h1, h2, h3, h4⟩ := h
  by_cases hd : 1 < day
  · unfold predDay
    dsimp only at *
    rw [if_pos hd]
    unfold toDays
    dsimp only
    by_cases hm : m ≤ 2 <;> simp only [hm, ite_true, ite_false, if_pos, if_neg] <;> omega
  · have hday : day = 1 := by
      unfold monthLen at h4
      dsimp only at *
      split_ifs at h4 <;> omega
    subst hday
    unfold predDay
    dsimp only at *
    rw [if_neg hd]
    by_cases hm : 1 < m
    · rw [if_pos hm]
      interval_cases m <;>
        first
          | (unfold toDays monthLen isLeap; norm_num; done)
          | (unfold toDays monthLen isLeap; norm_num; omega)
    · have hm1 : m = 1 := by omega
      subst hm1
      rw [if_neg hm]
      unfold toDays
      dsimp only
      norm_num
      omega

theorem validDate_predDay (d : CivilDate) (h : validDate d) : validDate (predDay d) := by
  obtain ⟨y, m, day⟩ := d
  obtain ⟨h1, h2, h3, h4⟩ := h
  unfold predDay validDate monthLen at *
  dsimp only at *
  split_ifs at * <;> simp_all <;> omega

theorem toDays_predIter (k : Nat) (d : CivilDate) (h : validDate d) :
    toDays (predDay^[k] d) = toDays d - k ∧ validDate (predDay^[k] d) := by
  induction k generalizing d with
  | zero =>
    constructor
    · simp
    · simpa using h
  | succ j ih =>
    rw [Function.iterate_succ_apply]
    obtain ⟨ih1, ih2⟩ := ih (predDay d) (validDate_predDay d h)
    refine ⟨?_, ih2⟩
    rw [ih1, toDays_predDay d h]
    push_cast
    ring

theorem addDays_nonpos (d : CivilDate) (h : validDate d) (n : Int) (hn : n ≤ 0) :
    toDays (addDays d n) = toDays d + n ∧ validDate (addDays d n) := by
  unfold addDays
  by_cases h0 : 0 ≤ n
  · have hz : n = 0 := le_antisymm hn h0
    subst hz
    constructor
    · simp
    · simpa using h
  · rw [if_neg h0]
    obtain ⟨e1, e2⟩ := toDays_predIter (-n).toNat d h
    refine ⟨?_, e2⟩
    rw [e1]
    omega

/-- C4: for every range of valid civil dates with `min` not after `max`,
`previousDateRange` returns the window of the same inclusive day-count
ending exactly one day before `min`. -/
theorem C4_previousDateRange_length (r : DateRange) (hmin : validDate r.min)
    (hmax : validDate r.max) (hle : toDays r.min ≤ toDays r.max) :
    rangeDayCount (previousDateRange r) = rangeDayCount r ∧
    toDays (previousDateRange r).max = toDays r.min - 1 ∧
    (previousDateRange r).max = predDay r.min := by
  have hd1 := addDays_nonpos r.min hmin (-1) (by omega)
  have hd2 := addDays_nonpos (addDays r.min (-1)) hd1.2
    (-(max 0 (toDays r.max - toDays r.min) + 1 - 1)) (by omega)
  refine ⟨?_, ?_, ?_⟩
  · unfold previousDateRange rangeDayCount
    dsimp only
    rw [hd2.1, hd1.1]
    omega
  · unfold previousDateRange
    dsimp only
    rw [hd1.1]
    omega
  · unfold previousDateRange addDays
    dsimp only
    rw [if_neg (by omega)]
    rfl

/-- C4 witness: the theorem at the concrete range 2025-10-01..2025-10-10;
the previous range also spans 10 days and ends on 2025-09-30. -/
theorem C4_previousDateRange_witness :
    rangeDayCount (previousDateRange
        { min := { year := 2025, month := 10, day := 1 },
          max := { year := 2025, month := 10, day := 10 } }) =
      rangeDayCount
        { min := { year := 2025, month := 10, day := 1 },
          max := { year := 2025, month := 10, day := 10 } } ∧
    (previousDateRange
        { min := { year := 2025, month := 10, day := 1 },
          max := { year := 2025, month := 10, day := 10 } }).max =
      predDay { year := 2025, month := 10, day := 1 } ∧
    rangeDayCount
        { min := { year := 2025, month := 10, day := 1 },
          max := { year := 2025, month := 10, day := 10 } } = 10 := by
  have h := C4_previousDateRange_length
    { min := { year := 2025, month := 10, day := 1 },
      max := { year := 2025, month := 10, day := 10 } }
    (by decide) (by decide) (by decide)
  exact ⟨h.1, h.2.2, by decide⟩

end FinSight
